import Mathlib

/-! HIH8000Command_I2C: command-mode driver of the HIH8000 humidity sensor.

A shallow embedding of `HIH8000Command_I2C.cpp` / `HIH8000Command_I2C.h`.

* The object's four fields are the structure `HIH8000Command_I2C`.
* The Arduino `Wire` object is the structure `TwoWire`: a transmit buffer, a
  receive buffer, the device at the far end (what it answers to the i-th read
  request) and the list of everything that went over the bus.
* Machine integers are `Nat`, reduced modulo `2^8` or `2^16` where the C++
  converts; `Wire.read()` returns an `Int` (`-1` when the buffer is empty).
* The two `while (sensorBusy_)` loops take a bound on their number of
  iterations; when the bound is used up with the loop still running the
  result is `Outcome.polling`, carrying the state reached so far.
* `float` values are exact rationals.
-/

namespace HIH8000

/-! ## Integer conversions -/

/-- Conversion of an `int` to `uint8_t`. -/
def toUInt8 (i : Int) : Nat := (i % 256).toNat

/-- Conversion of an `int` to `uint16_t`. -/
def toUInt16 (i : Int) : Nat := (i % 65536).toNat

/-! ## Constants of `HIH8000Command_I2C.h` -/

def COMMAND_START_ : Nat := 0xA0
def COMMAND_EXIT_ : Nat := 0x80

def COMMAND_READ_ALARM_HIGH_ON_ : Nat := 0x18
def COMMAND_READ_ALARM_HIGH_OFF_ : Nat := 0x19
def COMMAND_READ_ALARM_LOW_ON_ : Nat := 0x1A
def COMMAND_READ_ALARM_LOW_OFF_ : Nat := 0x1B
def COMMAND_READ_CUSTCONFIG_ : Nat := 0x1C

def COMMAND_WRITE_ALARM_HIGH_ON_ : Nat := 0x58
def COMMAND_WRITE_ALARM_HIGH_OFF_ : Nat := 0x59
def COMMAND_WRITE_ALARM_LOW_ON_ : Nat := 0x5A
def COMMAND_WRITE_ALARM_LOW_OFF_ : Nat := 0x5B
def COMMAND_WRITE_CUSTCONFIG_ : Nat := 0x5C

def DATA_DUMMY_ : Nat := 0x0000
def DATA_ADDRESS_CLEAR_ : Nat := 0xFF80

def DATA_ALARM_LOW_POLARITY_ACTIVELOW_ : Nat := 0x0040
def DATA_ALARM_LOW_POLARITY_ACTIVEHIGH_ : Nat := 0xFFBF
def DATA_ALARM_LOW_OUTPUT_OPENDRAIN_ : Nat := 0x0080
def DATA_ALARM_LOW_OUTPUT_PUSHPULL_ : Nat := 0xFF7F
def DATA_ALARM_HIGH_POLARITY_ACTIVELOW_ : Nat := 0x0100
def DATA_ALARM_HIGH_POLARITY_ACTIVEHIGH_ : Nat := 0xFEFF
def DATA_ALARM_HIGH_OUTPUT_OPENDRAIN_ : Nat := 0x0200
def DATA_ALARM_HIGH_OUTPUT_PUSHPULL_ : Nat := 0xFDFF

def DATA_STARTUP_3MS_ : Nat := 0x1000
def DATA_STARTUP_10MS_ : Nat := 0xEFFF

def RESPONSEBYTECOUNT_READ_ : Nat := 3
def RESPONSEBYTECOUNT_WRITE_ : Nat := 1

/-! ## The bus transport -/

/-- What goes over the bus: a frame of bytes written to an address, or a
request to read `count` bytes from an address. -/
inductive BusEvent where
  | frame (address : Nat) (bytes : List Nat)
  | request (address : Nat) (count : Nat)
  deriving DecidableEq, Repr

/-- Modelled from the spec: the `Wire` object of the Arduino platform is not
part of the repository; section 6 of the specification gives its contract
(`write(address, bytes)` sends the bytes as one frame, `requestRead(address,
count)` reads `count` bytes). `device i` is what the device answers to the
`i`-th read request, `requests` counts the read requests made so far, and
`traffic` records every frame and read request in order. -/
structure TwoWire where
  txAddress : Nat
  txBuffer : List Nat
  rxBuffer : List Nat
  device : Nat → List Nat
  requests : Nat
  traffic : List BusEvent

namespace TwoWire

/-- Modelled from the spec: `Wire.beginTransmission(address)` opens a frame to
the address. -/
def beginTransmission (w : TwoWire) (address : Nat) : TwoWire :=
  { w with txAddress := address, txBuffer := [] }

/-- Modelled from the spec: `Wire.write(value)` queues one byte of the frame;
a wider argument is converted to one byte. -/
def write (w : TwoWire) (value : Nat) : TwoWire :=
  { w with txBuffer := w.txBuffer ++ [value % 256] }

/-- Modelled from the spec: `Wire.endTransmission()` transmits the queued
bytes as one frame. -/
def endTransmission (w : TwoWire) : TwoWire :=
  { w with txBuffer := [],
           traffic := w.traffic ++ [BusEvent.frame w.txAddress w.txBuffer] }

/-- Modelled from the spec: `Wire.requestFrom(address, count)` reads at most
`count` bytes of the device's next answer into the receive buffer. -/
def requestFrom (w : TwoWire) (address count : Nat) : TwoWire :=
  { w with rxBuffer := ((w.device w.requests).take count).map (fun b => b % 256),
           requests := w.requests + 1,
           traffic := w.traffic ++ [BusEvent.request address count] }

/-- Modelled from the spec: `Wire.read()` takes the next received byte, or
returns `-1` when none is left. -/
def read (w : TwoWire) : Int × TwoWire :=
  match w.rxBuffer with
  | [] => (-1, w)
  | b :: rest => ((b : Int), { w with rxBuffer := rest })

end TwoWire

/-! ## The session object -/

/-- The fields of `class HIH8000Command_I2C`. -/
structure HIH8000Command_I2C where
  addressSet_ : Bool
  inCommandMode_ : Bool
  sensorBusy_ : Bool
  address_ : Nat
  deriving DecidableEq, Repr

/-- Result of running a member function that contains a busy-poll loop:
either it returned, or the bound on the loop's iterations was used up with
the loop still running. Both carry the object and the bus as they are at that
point. -/
inductive Outcome (α : Type) where
  | returned (value : α) (self : HIH8000Command_I2C) (wire : TwoWire)
  | polling (self : HIH8000Command_I2C) (wire : TwoWire)

namespace Outcome

/-- The bus at the point the run has reached. -/
def wire {α : Type} : Outcome α → TwoWire
  | returned _ _ w => w
  | polling _ w => w

/-- The object at the point the run has reached. -/
def self {α : Type} : Outcome α → HIH8000Command_I2C
  | returned _ s _ => s
  | polling s _ => s

/-- The returned value, when the run has returned. -/
def value? {α : Type} : Outcome α → Option α
  | returned v _ _ => some v
  | polling _ _ => none

end Outcome

namespace HIH8000Command_I2C

/-- The member initialisers of the class; `address_` has none, so its
content is whatever the memory holds. -/
def fresh (indeterminate : Nat) : HIH8000Command_I2C :=
  { addressSet_ := false, inCommandMode_ := false, sensorBusy_ := false,
    address_ := indeterminate }

/-- `void setAddress(uint8_t newAddress)`. -/
def setAddress (self : HIH8000Command_I2C) (newAddress : Nat) : HIH8000Command_I2C :=
  if !self.inCommandMode_ then
    if newAddress ≤ 0x7F then
      { self with address_ := newAddress, addressSet_ := true }
    else self
  else self

/-- `HIH8000Command_I2C(uint8_t address)`. -/
def mkWithAddress (indeterminate address : Nat) : HIH8000Command_I2C :=
  (fresh indeterminate).setAddress address

/-- `HIH8000Command_I2C()`. -/
def mk0 (indeterminate : Nat) : HIH8000Command_I2C :=
  fresh indeterminate

/-- `bool begin()`. -/
def begin (self : HIH8000Command_I2C) (wire : TwoWire) :
    Bool × HIH8000Command_I2C × TwoWire :=
  let self := { self with sensorBusy_ := true }
  let wire := wire.beginTransmission self.address_
  let wire := wire.write COMMAND_START_
  let wire := wire.write DATA_DUMMY_
  let wire := wire.write DATA_DUMMY_
  let wire := wire.endTransmission
  let wire := wire.requestFrom self.address_ RESPONSEBYTECOUNT_WRITE_
  let r := wire.read
  let statusByte := toUInt8 r.1
  let wire := r.2
  if statusByte &&& 0x80 ≠ 0 then
    (true, { self with inCommandMode_ := true }, wire)
  else
    (false, self, wire)

/-- `void end()`. -/
def «end» (self : HIH8000Command_I2C) (wire : TwoWire) :
    HIH8000Command_I2C × TwoWire :=
  let wire := wire.beginTransmission self.address_
  let wire := wire.write COMMAND_EXIT_
  let wire := wire.write DATA_DUMMY_
  let wire := wire.write DATA_DUMMY_
  let wire := wire.endTransmission
  ({ self with inCommandMode_ := false }, wire)

/-- The destructor `~HIH8000Command_I2C()`. -/
def destroy (self : HIH8000Command_I2C) (wire : TwoWire) :
    HIH8000Command_I2C × TwoWire :=
  if self.inCommandMode_ then self.end wire else (self, wire)

/-- The loop `while (sensorBusy_) { ... }` of `readRegister`, run for at most
`bound` iterations. `statusByte` and `dataBytes` are the local variable and
the reference argument; `dataBytes` is `none` as long as nothing was
assigned to it. -/
def readRegisterLoop : Nat → HIH8000Command_I2C → TwoWire → Nat → Option Nat →
    Outcome (Nat × Option Nat)
  | 0, self, wire, statusByte, dataBytes =>
    if self.sensorBusy_ then Outcome.polling self wire
    else Outcome.returned (statusByte, dataBytes) self wire
  | bound + 1, self, wire, statusByte, dataBytes =>
    if self.sensorBusy_ then
      let wire := wire.requestFrom self.address_ RESPONSEBYTECOUNT_READ_
      let r := wire.read
      let statusByte := toUInt8 r.1
      let wire := r.2
      if statusByte &&& 0x03 ≠ 0 then
        let self := { self with sensorBusy_ := false }
        let r := wire.read
        let dataBytes := toUInt16 r.1
        let wire := r.2
        let dataBytes := (dataBytes <<< 8) % 65536
        let r := wire.read
        let readBuffer := toUInt8 r.1
        let wire := r.2
        let dataBytes := dataBytes ||| readBuffer
        readRegisterLoop bound self wire statusByte (some dataBytes)
      else
        readRegisterLoop bound self wire statusByte dataBytes
    else Outcome.returned (statusByte, dataBytes) self wire

/-- `bool readRegister(uint8_t command, uint16_t& dataBytes)`. The value is
the pair of the returned `bool` and the word assigned to `dataBytes`. When
`inCommandMode_` is false control reaches the closing brace without a
`return`: the call has no defined value (`none`), the object and the bus are
as they were. The local `statusByte` is not initialised; the loop assigns it
in its first iteration, which always runs because `sensorBusy_` was just set. -/
def readRegister (bound : Nat) (self : HIH8000Command_I2C) (wire : TwoWire)
    (command : Nat) : Outcome (Option Bool × Option Nat) :=
  if self.inCommandMode_ then
    let self := { self with sensorBusy_ := true }
    let wire := wire.beginTransmission self.address_
    let wire := wire.write command
    let wire := wire.write DATA_DUMMY_
    let wire := wire.write DATA_DUMMY_
    let wire := wire.endTransmission
    match readRegisterLoop bound self wire 0 none with
    | Outcome.polling self wire => Outcome.polling self wire
    | Outcome.returned (statusByte, dataBytes) self wire =>
      if statusByte &&& 0x01 ≠ 0 then
        Outcome.returned (some true, dataBytes) self wire
      else
        Outcome.returned (some false, dataBytes) self wire
  else
    Outcome.returned (none, none) self wire

/-- The loop `while (sensorBusy_) { ... }` of `writeRegister`, run for at most
`bound` iterations. -/
def writeRegisterLoop : Nat → HIH8000Command_I2C → TwoWire → Nat → Outcome Nat
  | 0, self, wire, statusByte =>
    if self.sensorBusy_ then Outcome.polling self wire
    else Outcome.returned statusByte self wire
  | bound + 1, self, wire, statusByte =>
    if self.sensorBusy_ then
      let wire := wire.requestFrom self.address_ RESPONSEBYTECOUNT_WRITE_
      let r := wire.read
      let statusByte := toUInt8 r.1
      let wire := r.2
      if statusByte &&& 0x03 ≠ 0 then
        let self := { self with sensorBusy_ := false }
        writeRegisterLoop bound self wire statusByte
      else
        writeRegisterLoop bound self wire statusByte
    else Outcome.returned statusByte self wire

/-- `bool writeRegister(uint8_t command, uint16_t oldDataBytes,
uint16_t newDataBytes, bool bitwiseOr)`. As in `readRegister`, the value is
`none` when control reaches the closing brace without a `return`. -/
def writeRegister (bound : Nat) (self : HIH8000Command_I2C) (wire : TwoWire)
    (command oldDataBytes newDataBytes : Nat) (bitwiseOr : Bool) :
    Outcome (Option Bool) :=
  if self.inCommandMode_ then
    let self := { self with sensorBusy_ := true }
    let combinedDataByte :=
      if bitwiseOr then oldDataBytes ||| newDataBytes
      else oldDataBytes &&& newDataBytes
    let dataByte1 := (combinedDataByte >>> 8) % 256
    let dataByte2 := combinedDataByte &&& 0xFF
    let wire := wire.beginTransmission self.address_
    let wire := wire.write command
    let wire := wire.write dataByte1
    let wire := wire.write dataByte2
    let wire := wire.endTransmission
    match writeRegisterLoop bound self wire 0 with
    | Outcome.polling self wire => Outcome.polling self wire
    | Outcome.returned statusByte self wire =>
      if statusByte &&& 0x01 ≠ 0 then
        Outcome.returned (some true) self wire
      else
        Outcome.returned (some false) self wire
  else
    Outcome.returned none self wire

/-- `bool readCustConfig(uint16_t& dataBytes)`. The condition of its `if` is
the value of `readRegister`; without such a value there is none here either. -/
def readCustConfig (bound : Nat) (self : HIH8000Command_I2C) (wire : TwoWire) :
    Outcome (Option Bool × Option Nat) :=
  match readRegister bound self wire COMMAND_READ_CUSTCONFIG_ with
  | Outcome.polling self wire => Outcome.polling self wire
  | Outcome.returned (r, dataBytes) self wire =>
    match r with
    | some true => Outcome.returned (some true, dataBytes) self wire
    | some false => Outcome.returned (some false, dataBytes) self wire
    | none => Outcome.returned (none, dataBytes) self wire

/-- `float bitsToHumidity(uint16_t rawBits)`, in exact arithmetic. -/
def bitsToHumidity (rawBits : Nat) : ℚ :=
  (rawBits : ℚ) / 16382 * 100

/-- Truncation of a `float` toward zero, the first step of its conversion to
an integer type. -/
def truncate (x : ℚ) : Int :=
  if 0 ≤ x then ⌊x⌋ else ⌈x⌉

/-- The cast `(uint16_t) humidity` of a `float`: the truncated value when it
fits in 16 bits; the conversion is not defined otherwise (`none`). -/
def floatToUInt16 (x : ℚ) : Option Nat :=
  if 0 ≤ truncate x ∧ truncate x < 65536 then some (truncate x).toNat else none

/-- `uint16_t humidityToBits(float humidity)`: the body is
`(uint16_t) humidity/100 * 16382`, in which the cast applies to `humidity`
alone, so that the division and the product are integer operations whose
result is converted to `uint16_t`. -/
def humidityToBits (humidity : ℚ) : Option Nat :=
  (floatToUInt16 humidity).map (fun t => (t / 100 * 16382) % 65536)

/-- Common body of the four threshold accessors `readAlarmHighOn`,
`readAlarmHighOff`, `readAlarmLowOn`, `readAlarmLowOff`, which differ in the
command byte only: `if (readRegister(command, dataBytes)) return
bitsToHumidity(dataBytes); else return -1;`. -/
def readAlarm (bound : Nat) (self : HIH8000Command_I2C) (wire : TwoWire)
    (command : Nat) : Outcome (Option ℚ) :=
  match readRegister bound self wire command with
  | Outcome.polling self wire => Outcome.polling self wire
  | Outcome.returned (r, dataBytes) self wire =>
    match r with
    | some true => Outcome.returned (dataBytes.map bitsToHumidity) self wire
    | some false => Outcome.returned (some (-1)) self wire
    | none => Outcome.returned none self wire

/-- `float readAlarmHighOn()`. -/
def readAlarmHighOn (bound : Nat) (self : HIH8000Command_I2C) (wire : TwoWire) :
    Outcome (Option ℚ) :=
  readAlarm bound self wire COMMAND_READ_ALARM_HIGH_ON_

/-- `float readAlarmHighOff()`. -/
def readAlarmHighOff (bound : Nat) (self : HIH8000Command_I2C) (wire : TwoWire) :
    Outcome (Option ℚ) :=
  readAlarm bound self wire COMMAND_READ_ALARM_HIGH_OFF_

/-- `float readAlarmLowOn()`. -/
def readAlarmLowOn (bound : Nat) (self : HIH8000Command_I2C) (wire : TwoWire) :
    Outcome (Option ℚ) :=
  readAlarm bound self wire COMMAND_READ_ALARM_LOW_ON_

/-- `float readAlarmLowOff()`. -/
def readAlarmLowOff (bound : Nat) (self : HIH8000Command_I2C) (wire : TwoWire) :
    Outcome (Option ℚ) :=
  readAlarm bound self wire COMMAND_READ_ALARM_LOW_OFF_

/-- `uint16_t readAddress()`. -/
def readAddress (bound : Nat) (self : HIH8000Command_I2C) (wire : TwoWire) :
    Outcome (Option Nat) :=
  match readCustConfig bound self wire with
  | Outcome.polling self wire => Outcome.polling self wire
  | Outcome.returned (r, dataBytes) self wire =>
    match r with
    | some true => Outcome.returned dataBytes self wire
    | some false => Outcome.returned (some 100) self wire
    | none => Outcome.returned none self wire

/-- Common body of `changeAlarmHighOn`, `changeAlarmHighOff`,
`changeAlarmLowOn`, `changeAlarmLowOff`, which differ in the command byte
only: `uint16_t dataBytes = humidityToBits(humidity); return
writeRegister(command, dataBytes, dataBytes, true);`. The result is `none`
where the conversion of `humidity` is not defined. -/
def changeAlarm (bound : Nat) (self : HIH8000Command_I2C) (wire : TwoWire)
    (command : Nat) (humidity : ℚ) : Option (Outcome (Option Bool)) :=
  (humidityToBits humidity).map
    (fun dataBytes => writeRegister bound self wire command dataBytes dataBytes true)

/-- `bool changeAlarmHighOn(float humidity)`. -/
def changeAlarmHighOn (bound : Nat) (self : HIH8000Command_I2C) (wire : TwoWire)
    (humidity : ℚ) : Option (Outcome (Option Bool)) :=
  changeAlarm bound self wire COMMAND_WRITE_ALARM_HIGH_ON_ humidity

/-- `bool changeAlarmHighOff(float humidity)`. -/
def changeAlarmHighOff (bound : Nat) (self : HIH8000Command_I2C) (wire : TwoWire)
    (humidity : ℚ) : Option (Outcome (Option Bool)) :=
  changeAlarm bound self wire COMMAND_WRITE_ALARM_HIGH_OFF_ humidity

/-- `bool changeAlarmLowOn(float humidity)`. -/
def changeAlarmLowOn (bound : Nat) (self : HIH8000Command_I2C) (wire : TwoWire)
    (humidity : ℚ) : Option (Outcome (Option Bool)) :=
  changeAlarm bound self wire COMMAND_WRITE_ALARM_LOW_ON_ humidity

/-- `bool changeAlarmLowOff(float humidity)`. -/
def changeAlarmLowOff (bound : Nat) (self : HIH8000Command_I2C) (wire : TwoWire)
    (humidity : ℚ) : Option (Outcome (Option Bool)) :=
  changeAlarm bound self wire COMMAND_WRITE_ALARM_LOW_OFF_ humidity

/-- `bool changeAddress(uint8_t newAddress)`. -/
def changeAddress (bound : Nat) (self : HIH8000Command_I2C) (wire : TwoWire)
    (newAddress : Nat) : Outcome (Option Bool) :=
  if newAddress ≤ 0x7F then
    match readCustConfig bound self wire with
    | Outcome.polling self wire => Outcome.polling self wire
    | Outcome.returned (r, dataBytes) self wire =>
      match r with
      | some true =>
        match dataBytes with
        | some dataBytes =>
          let dataBytes := dataBytes &&& DATA_ADDRESS_CLEAR_
          writeRegister bound self wire COMMAND_WRITE_CUSTCONFIG_ dataBytes newAddress true
        | none => Outcome.returned none self wire
      | some false => Outcome.returned (some false) self wire
      | none => Outcome.returned none self wire
  else
    Outcome.returned (some false) self wire

/-- Common body of `changeAlarmLowPolarity`, `changeAlarmLowOutput`,
`changeAlarmHighPolarity`, `changeAlarmHighOutput` and
`changeStartupTimeWindow`, which differ in the two constants only: read the
customer configuration, then write it back, OR-ed with `setBits` when the
argument is true and AND-ed with `clearMask` when it is false. -/
def changeCustConfig (bound : Nat) (self : HIH8000Command_I2C) (wire : TwoWire)
    (flag : Bool) (setBits clearMask : Nat) : Outcome (Option Bool) :=
  match readCustConfig bound self wire with
  | Outcome.polling self wire => Outcome.polling self wire
  | Outcome.returned (r, dataBytes) self wire =>
    match r with
    | some true =>
      match dataBytes with
      | some dataBytes =>
        if flag then
          writeRegister bound self wire COMMAND_WRITE_CUSTCONFIG_ dataBytes setBits true
        else
          writeRegister bound self wire COMMAND_WRITE_CUSTCONFIG_ dataBytes clearMask false
      | none => Outcome.returned none self wire
    | some false => Outcome.returned (some false) self wire
    | none => Outcome.returned none self wire

/-- `bool changeAlarmLowPolarity(bool lowPolarity)`. -/
def changeAlarmLowPolarity (bound : Nat) (self : HIH8000Command_I2C) (wire : TwoWire)
    (lowPolarity : Bool) : Outcome (Option Bool) :=
  changeCustConfig bound self wire lowPolarity
    DATA_ALARM_LOW_POLARITY_ACTIVELOW_ DATA_ALARM_LOW_POLARITY_ACTIVEHIGH_

/-- `bool changeAlarmLowOutput(bool openDrain)`. -/
def changeAlarmLowOutput (bound : Nat) (self : HIH8000Command_I2C) (wire : TwoWire)
    (openDrain : Bool) : Outcome (Option Bool) :=
  changeCustConfig bound self wire openDrain
    DATA_ALARM_LOW_OUTPUT_OPENDRAIN_ DATA_ALARM_LOW_OUTPUT_PUSHPULL_

/-- `bool changeAlarmHighPolarity(bool lowPolarity)`. -/
def changeAlarmHighPolarity (bound : Nat) (self : HIH8000Command_I2C) (wire : TwoWire)
    (lowPolarity : Bool) : Outcome (Option Bool) :=
  changeCustConfig bound self wire lowPolarity
    DATA_ALARM_HIGH_POLARITY_ACTIVELOW_ DATA_ALARM_HIGH_POLARITY_ACTIVEHIGH_

/-- `bool changeAlarmHighOutput(bool openDrain)`. -/
def changeAlarmHighOutput (bound : Nat) (self : HIH8000Command_I2C) (wire : TwoWire)
    (openDrain : Bool) : Outcome (Option Bool) :=
  changeCustConfig bound self wire openDrain
    DATA_ALARM_HIGH_OUTPUT_OPENDRAIN_ DATA_ALARM_HIGH_OUTPUT_PUSHPULL_

/-- `bool changeStartupTimeWindow(bool setTo3ms)`. -/
def changeStartupTimeWindow (bound : Nat) (self : HIH8000Command_I2C) (wire : TwoWire)
    (setTo3ms : Bool) : Outcome (Option Bool) :=
  changeCustConfig bound self wire setTo3ms DATA_STARTUP_3MS_ DATA_STARTUP_10MS_

end HIH8000Command_I2C

/-! ## Families of operations

The public member functions come in families whose members differ in a
constant only. The enumerations below name the members, so that a property of
a whole family is one statement. -/

/-- The four alarm thresholds, each with a read accessor and a change
operation. -/
inductive Threshold where
  | alarmHighOn
  | alarmHighOff
  | alarmLowOn
  | alarmLowOff
  deriving DecidableEq, Repr

namespace Threshold

/-- The read accessor of a threshold. -/
def read (t : Threshold) (bound : Nat) (self : HIH8000Command_I2C) (wire : TwoWire) :
    Outcome (Option ℚ) :=
  match t with
  | alarmHighOn => self.readAlarmHighOn bound wire
  | alarmHighOff => self.readAlarmHighOff bound wire
  | alarmLowOn => self.readAlarmLowOn bound wire
  | alarmLowOff => self.readAlarmLowOff bound wire

/-- The change operation of a threshold. -/
def change (t : Threshold) (bound : Nat) (self : HIH8000Command_I2C) (wire : TwoWire)
    (humidity : ℚ) : Option (Outcome (Option Bool)) :=
  match t with
  | alarmHighOn => self.changeAlarmHighOn bound wire humidity
  | alarmHighOff => self.changeAlarmHighOff bound wire humidity
  | alarmLowOn => self.changeAlarmLowOn bound wire humidity
  | alarmLowOff => self.changeAlarmLowOff bound wire humidity

/-- The command byte of the read accessor, as in the command byte map. -/
def readCommand : Threshold → Nat
  | alarmHighOn => 0x18
  | alarmHighOff => 0x19
  | alarmLowOn => 0x1A
  | alarmLowOff => 0x1B

/-- The command byte of the change operation, as in the command byte map. -/
def writeCommand : Threshold → Nat
  | alarmHighOn => 0x58
  | alarmHighOff => 0x59
  | alarmLowOn => 0x5A
  | alarmLowOff => 0x5B

end Threshold

/-- The five change operations on single bits of the customer configuration. -/
inductive BitfieldOp where
  | alarmLowPolarity
  | alarmLowOutput
  | alarmHighPolarity
  | alarmHighOutput
  | startupTimeWindow
  deriving DecidableEq, Repr

namespace BitfieldOp

/-- The member function of a bitfield operation. -/
def run (op : BitfieldOp) (bound : Nat) (self : HIH8000Command_I2C) (wire : TwoWire)
    (flag : Bool) : Outcome (Option Bool) :=
  match op with
  | alarmLowPolarity => self.changeAlarmLowPolarity bound wire flag
  | alarmLowOutput => self.changeAlarmLowOutput bound wire flag
  | alarmHighPolarity => self.changeAlarmHighPolarity bound wire flag
  | alarmHighOutput => self.changeAlarmHighOutput bound wire flag
  | startupTimeWindow => self.changeStartupTimeWindow bound wire flag

/-- The position of the bit an operation is about: bits 6, 7, 8, 9 and 12 of
the customer configuration, that is the set-bits 0x0040, 0x0080, 0x0100,
0x0200 and 0x1000. -/
def bitIndex : BitfieldOp → Nat
  | alarmLowPolarity => 6
  | alarmLowOutput => 7
  | alarmHighPolarity => 8
  | alarmHighOutput => 9
  | startupTimeWindow => 12

/-- The set-bit of an operation, as a 16-bit word. -/
def setBit : BitfieldOp → Nat
  | alarmLowPolarity => 0x0040
  | alarmLowOutput => 0x0080
  | alarmHighPolarity => 0x0100
  | alarmHighOutput => 0x0200
  | startupTimeWindow => 0x1000

end BitfieldOp

/-- The predicate "a configured address is a 7-bit address". -/
def AddressValid (self : HIH8000Command_I2C) : Prop :=
  self.addressSet_ = true → self.address_ ≤ 0x7F

/-- A call of a public member function, with its arguments. -/
inductive PublicCall where
  | setAddress (newAddress : Nat)
  | begin
  | finish
  | readThreshold (t : Threshold)
  | readAddress
  | changeThreshold (t : Threshold) (humidity : ℚ)
  | changeAddress (newAddress : Nat)
  | changeBit (op : BitfieldOp) (flag : Bool)

/-- The object after a public call, or at the point the call has reached when
the bound on its poll loop is used up; `none` where the call's conversion of
its argument is not defined. `finish` is the member function `end`. -/
def PublicCall.after (bound : Nat) (self : HIH8000Command_I2C) (wire : TwoWire) :
    PublicCall → Option HIH8000Command_I2C
  | PublicCall.setAddress a => some (self.setAddress a)
  | PublicCall.begin => some (self.begin wire).2.1
  | PublicCall.finish => some (self.end wire).1
  | PublicCall.readThreshold t => some (t.read bound self wire).self
  | PublicCall.readAddress => some (self.readAddress bound wire).self
  | PublicCall.changeThreshold t h => (t.change bound self wire h).map Outcome.self
  | PublicCall.changeAddress n => some (self.changeAddress bound wire n).self
  | PublicCall.changeBit op flag => some (op.run bound self wire flag).self

/-! ## Bytes, bits and words -/

theorem toUInt8_natCast (b : Nat) (h : b < 256) : toUInt8 (b : Int) = b := by
  unfold toUInt8
  omega

theorem toUInt16_natCast (b : Nat) (h : b < 65536) : toUInt16 (b : Int) = b := by
  unfold toUInt16
  omega

theorem and_three_eq_mod (s : Nat) : s &&& 0x03 = s % 4 := by
  have h := Nat.and_pow_two_sub_one_eq_mod s 2
  norm_num at h
  exact h

theorem and_one_ne_zero_iff (s : Nat) : s &&& 0x01 ≠ 0 ↔ s.testBit 0 = true := by
  rw [Nat.and_one_is_mod, Nat.testBit_zero]
  simp

theorem and_0x80_ne_zero_iff (s : Nat) : s &&& 0x80 ≠ 0 ↔ s.testBit 7 = true := by
  have h7 : (0x80 : Nat) = 2 ^ 7 := by norm_num
  constructor
  · intro h
    by_contra hb
    apply h
    apply Nat.eq_of_testBit_eq
    intro i
    rw [Nat.testBit_and, h7, Nat.testBit_two_pow]
    by_cases hi : 7 = i
    · subst hi; simp [hb]
    · simp [hi]
  · intro h h0
    have hbit := congrArg (fun x => Nat.testBit x 7) h0
    simp only [Nat.testBit_and, h7, Nat.testBit_two_pow, h] at hbit
    simp at hbit

theorem word_of_bytes (hi lo : Nat) (hhi : hi < 256) (hlo : lo < 256) :
    (hi <<< 8) % 65536 ||| lo = hi * 256 + lo := by
  have h1 : hi <<< 8 = 2 ^ 8 * hi := by rw [Nat.shiftLeft_eq]; ring
  have h2 : (2 ^ 8 * hi) % 65536 = 2 ^ 8 * hi := Nat.mod_eq_of_lt (by omega)
  rw [h1, h2, ← Nat.mul_add_lt_is_or (by norm_num; exact hlo)]
  ring

theorem testBit_addressClear (i : Nat) :
    Nat.testBit 0xFF80 i = (decide (i < 16) && !decide (i < 7)) := by
  have h := @Nat.testBit_two_pow_sub_succ 127 16 (by norm_num) i
  have h2 := Nat.testBit_two_pow_sub_one 7 i
  norm_num at h h2
  rw [h, h2]

theorem testBit_of_lt_of_le {x a i : Nat} (hx : x < 2 ^ a) (hi : a ≤ i) :
    x.testBit i = false :=
  Nat.testBit_lt_two_pow (lt_of_lt_of_le hx (Nat.pow_le_pow_right (by norm_num) hi))

theorem addressWord_shiftRight (c n : Nat) (hc : c < 65536) (hn : n ≤ 0x7F) :
    (c &&& 0xFF80 ||| n) >>> 8 = c >>> 8 := by
  apply Nat.eq_of_testBit_eq
  intro i
  have hn' : n.testBit (8 + i) = false :=
    testBit_of_lt_of_le (by omega : n < 2 ^ 7) (by omega)
  simp only [Nat.testBit_shiftRight, Nat.testBit_or, Nat.testBit_and,
    testBit_addressClear, hn']
  by_cases hi : 8 + i < 16
  · have h7 : ¬ (8 + i < 7) := by omega
    simp [hi, h7]
  · have hc' : c.testBit (8 + i) = false :=
      testBit_of_lt_of_le (by omega : c < 2 ^ 16) (by omega)
    simp [hc']

theorem addressWord_low (c n : Nat) (hn : n ≤ 0x7F) :
    (c &&& 0xFF80 ||| n) &&& 0xFF = (c &&& 0x80) ||| n := by
  apply Nat.eq_of_testBit_eq
  intro i
  have hFF : (0xFF : Nat) = 2 ^ 8 - 1 := by norm_num
  have h80 : (0x80 : Nat) = 2 ^ 7 := by norm_num
  simp only [Nat.testBit_or, Nat.testBit_and, testBit_addressClear]
  rw [hFF, h80, Nat.testBit_two_pow_sub_one, Nat.testBit_two_pow]
  by_cases h7 : i < 7
  · have hne : ¬ (7 = i) := by omega
    have h8 : i < 8 := by omega
    simp [h7, hne, h8]
  · have hn' : n.testBit i = false :=
      testBit_of_lt_of_le (by omega : n < 2 ^ 7) (by omega)
    by_cases h : 7 = i
    · subst h; simp [hn']
    · have h8 : ¬ i < 8 := by omega
      simp [hn', h, h8]

theorem addressWord_testBit (c n i : Nat) (hc : c < 65536) (hn : n ≤ 0x7F) :
    (c &&& 0xFF80 ||| n).testBit i = if i < 7 then n.testBit i else c.testBit i := by
  simp only [Nat.testBit_or, Nat.testBit_and, testBit_addressClear]
  by_cases h7 : i < 7
  · have h16 : i < 16 := by omega
    simp [h7, h16]
  · have hn' : n.testBit i = false :=
      testBit_of_lt_of_le (by omega : n < 2 ^ 7) (by omega)
    by_cases h16 : i < 16
    · simp [h7, h16, hn']
    · have hc' : c.testBit i = false :=
        testBit_of_lt_of_le (by omega : c < 2 ^ 16) (by omega)
      simp [h7, hn', hc']

/-! ## The busy-poll loops -/

namespace HIH8000Command_I2C

theorem readRegisterLoop_not_busy (bound : Nat) (self : HIH8000Command_I2C)
    (wire : TwoWire) (statusByte : Nat) (dataBytes : Option Nat)
    (h : self.sensorBusy_ = false) :
    readRegisterLoop bound self wire statusByte dataBytes =
      Outcome.returned (statusByte, dataBytes) self wire := by
  cases bound <;> simp [readRegisterLoop, h]

theorem writeRegisterLoop_not_busy (bound : Nat) (self : HIH8000Command_I2C)
    (wire : TwoWire) (statusByte : Nat) (h : self.sensorBusy_ = false) :
    writeRegisterLoop bound self wire statusByte =
      Outcome.returned statusByte self wire := by
  cases bound <;> simp [writeRegisterLoop, h]

/-- One iteration of the read loop on a busy answer: one more 3-byte request,
and the loop goes on. -/
theorem readRegisterLoop_busy_step (bound : Nat) (self : HIH8000Command_I2C)
    (wire : TwoWire) (statusByte : Nat) (dataBytes : Option Nat) (b : Nat)
    (rest : List Nat) (hbusy : self.sensorBusy_ = true)
    (hdev : wire.device wire.requests = b :: rest) (hb : b < 256) (h4 : b % 4 = 0) :
    ∃ w, readRegisterLoop (bound + 1) self wire statusByte dataBytes =
          readRegisterLoop bound self w b dataBytes ∧
      w.device = wire.device ∧ w.requests = wire.requests + 1 ∧
      w.traffic = wire.traffic ++ [BusEvent.request self.address_ 3] := by
  have h3 : b &&& 3 = 0 := by rw [and_three_eq_mod]; exact h4
  refine ⟨((wire.requestFrom self.address_ RESPONSEBYTECOUNT_READ_).read).2, ?_, ?_, ?_, ?_⟩
  · simp [readRegisterLoop, hbusy, TwoWire.requestFrom, TwoWire.read, hdev,
      RESPONSEBYTECOUNT_READ_, Nat.mod_eq_of_lt hb, toUInt8_natCast b hb, h3]
  · simp [TwoWire.requestFrom, TwoWire.read, hdev, RESPONSEBYTECOUNT_READ_]
  · simp [TwoWire.requestFrom, TwoWire.read, hdev, RESPONSEBYTECOUNT_READ_]
  · simp [TwoWire.requestFrom, TwoWire.read, hdev, RESPONSEBYTECOUNT_READ_]

/-- One iteration of the write loop on a busy answer. -/
theorem writeRegisterLoop_busy_step (bound : Nat) (self : HIH8000Command_I2C)
    (wire : TwoWire) (statusByte : Nat) (b : Nat)
    (rest : List Nat) (hbusy : self.sensorBusy_ = true)
    (hdev : wire.device wire.requests = b :: rest) (hb : b < 256) (h4 : b % 4 = 0) :
    ∃ w, writeRegisterLoop (bound + 1) self wire statusByte =
          writeRegisterLoop bound self w b ∧
      w.device = wire.device ∧ w.requests = wire.requests + 1 ∧
      w.traffic = wire.traffic ++ [BusEvent.request self.address_ 1] := by
  have h3 : b &&& 3 = 0 := by rw [and_three_eq_mod]; exact h4
  refine ⟨((wire.requestFrom self.address_ RESPONSEBYTECOUNT_WRITE_).read).2, ?_, ?_, ?_, ?_⟩
  · simp [writeRegisterLoop, hbusy, TwoWire.requestFrom, TwoWire.read, hdev,
      RESPONSEBYTECOUNT_WRITE_, Nat.mod_eq_of_lt hb, toUInt8_natCast b hb, h3]
  · simp [TwoWire.requestFrom, TwoWire.read, hdev, RESPONSEBYTECOUNT_WRITE_]
  · simp [TwoWire.requestFrom, TwoWire.read, hdev, RESPONSEBYTECOUNT_WRITE_]
  · simp [TwoWire.requestFrom, TwoWire.read, hdev, RESPONSEBYTECOUNT_WRITE_]

/-- The iteration of the read loop that receives a not-busy answer
`{s, hi, lo}`: one more 3-byte request, then the loop is left. -/
theorem readRegisterLoop_final_step (bound : Nat) (self : HIH8000Command_I2C)
    (wire : TwoWire) (statusByte : Nat) (dataBytes : Option Nat) (s hi lo : Nat)
    (hbusy : self.sensorBusy_ = true)
    (hdev : wire.device wire.requests = [s, hi, lo])
    (hs : s < 256) (hhi : hi < 256) (hlo : lo < 256) (h4 : s % 4 ≠ 0) :
    ∃ w, readRegisterLoop (bound + 1) self wire statusByte dataBytes =
          Outcome.returned (s, some (hi * 256 + lo))
            { self with sensorBusy_ := false } w ∧
      w.device = wire.device ∧ w.requests = wire.requests + 1 ∧
      w.traffic = wire.traffic ++ [BusEvent.request self.address_ 3] := by
  have h3 : ¬ (s &&& 3 = 0) := by rw [and_three_eq_mod]; exact h4
  refine ⟨(((wire.requestFrom self.address_ RESPONSEBYTECOUNT_READ_).read).2.read).2.read.2,
    ?_, ?_, ?_, ?_⟩
  · rw [readRegisterLoop]
    simp only [hbusy, if_true]
    simp [TwoWire.requestFrom, TwoWire.read, hdev,
      RESPONSEBYTECOUNT_READ_, Nat.mod_eq_of_lt hs, Nat.mod_eq_of_lt hhi,
      Nat.mod_eq_of_lt hlo, toUInt8_natCast s hs, toUInt8_natCast lo hlo,
      toUInt16_natCast hi (by omega), h3, readRegisterLoop_not_busy,
      word_of_bytes hi lo hhi hlo]
  · simp [TwoWire.requestFrom, TwoWire.read, hdev, RESPONSEBYTECOUNT_READ_]
  · simp [TwoWire.requestFrom, TwoWire.read, hdev, RESPONSEBYTECOUNT_READ_]
  · simp [TwoWire.requestFrom, TwoWire.read, hdev, RESPONSEBYTECOUNT_READ_]

/-- The iteration of the write loop that receives a not-busy status `s`. -/
theorem writeRegisterLoop_final_step (bound : Nat) (self : HIH8000Command_I2C)
    (wire : TwoWire) (statusByte : Nat) (s : Nat) (rest : List Nat)
    (hbusy : self.sensorBusy_ = true)
    (hdev : wire.device wire.requests = s :: rest)
    (hs : s < 256) (h4 : s % 4 ≠ 0) :
    ∃ w, writeRegisterLoop (bound + 1) self wire statusByte =
          Outcome.returned s { self with sensorBusy_ := false } w ∧
      w.device = wire.device ∧ w.requests = wire.requests + 1 ∧
      w.traffic = wire.traffic ++ [BusEvent.request self.address_ 1] := by
  have h3 : ¬ (s &&& 3 = 0) := by rw [and_three_eq_mod]; exact h4
  refine ⟨((wire.requestFrom self.address_ RESPONSEBYTECOUNT_WRITE_).read).2, ?_, ?_, ?_, ?_⟩
  · rw [writeRegisterLoop]
    simp only [hbusy, if_true]
    simp [TwoWire.requestFrom, TwoWire.read, hdev,
      RESPONSEBYTECOUNT_WRITE_, Nat.mod_eq_of_lt hs, toUInt8_natCast s hs, h3,
      writeRegisterLoop_not_busy]
  · simp [TwoWire.requestFrom, TwoWire.read, hdev, RESPONSEBYTECOUNT_WRITE_]
  · simp [TwoWire.requestFrom, TwoWire.read, hdev, RESPONSEBYTECOUNT_WRITE_]
  · simp [TwoWire.requestFrom, TwoWire.read, hdev, RESPONSEBYTECOUNT_WRITE_]

/-- The read loop on `k` busy answers followed by a not-busy answer
`{s, hi, lo}`: it returns after exactly `k + 1` requests of 3 bytes, with the
status and the word of the last answer. -/
theorem readRegisterLoop_run (k : Nat) :
    ∀ (bound : Nat) (self : HIH8000Command_I2C) (wire : TwoWire) (statusByte : Nat)
      (dataBytes : Option Nat) (s hi lo : Nat),
      self.sensorBusy_ = true →
      (∀ i, i < k → ∃ b rest, wire.device (wire.requests + i) = b :: rest ∧
        b < 256 ∧ b % 4 = 0) →
      wire.device (wire.requests + k) = [s, hi, lo] →
      s < 256 → hi < 256 → lo < 256 → s % 4 ≠ 0 → k < bound →
      ∃ w, readRegisterLoop bound self wire statusByte dataBytes =
            Outcome.returned (s, some (hi * 256 + lo))
              { self with sensorBusy_ := false } w ∧
        w.device = wire.device ∧ w.requests = wire.requests + (k + 1) ∧
        w.traffic = wire.traffic ++
          List.replicate (k + 1) (BusEvent.request self.address_ 3) := by
  induction k with
  | zero =>
    intro bound self wire statusByte dataBytes s hi lo hbusy _ hfin hs hhi hlo h4 hk
    obtain ⟨n, rfl⟩ : ∃ n, bound = n + 1 := ⟨bound - 1, by omega⟩
    obtain ⟨w, h1, h2, h3, h5⟩ := readRegisterLoop_final_step n self wire statusByte
      dataBytes s hi lo hbusy (by simpa using hfin) hs hhi hlo h4
    exact ⟨w, h1, h2, h3, by simpa using h5⟩
  | succ k ih =>
    intro bound self wire statusByte dataBytes s hi lo hbusy hall hfin hs hhi hlo h4 hk
    obtain ⟨n, rfl⟩ : ∃ n, bound = n + 1 := ⟨bound - 1, by omega⟩
    obtain ⟨b, rest, hdev, hb, hb4⟩ := hall 0 (by omega)
    obtain ⟨w1, e1, d1, r1, t1⟩ := readRegisterLoop_busy_step n self wire statusByte
      dataBytes b rest hbusy (by simpa using hdev) hb hb4
    have hall1 : ∀ i, i < k → ∃ b rest, w1.device (w1.requests + i) = b :: rest ∧
        b < 256 ∧ b % 4 = 0 := by
      intro i hi'
      obtain ⟨b', rest', hd', hb', hb4'⟩ := hall (i + 1) (by omega)
      refine ⟨b', rest', ?_, hb', hb4'⟩
      rw [d1, r1, ← hd']
      congr 1
      omega
    have hfin1 : w1.device (w1.requests + k) = [s, hi, lo] := by
      rw [d1, r1, ← hfin]
      congr 1
      omega
    obtain ⟨w, e2, d2, r2, t2⟩ := ih n self w1 b dataBytes s hi lo hbusy hall1 hfin1
      hs hhi hlo h4 (by omega)
    refine ⟨w, by rw [e1, e2], by rw [d2, d1], by rw [r2, r1]; omega, ?_⟩
    rw [t2, t1, List.append_assoc]
    rfl

/-- The write loop on `k` busy status bytes followed by a not-busy status
`s`: it returns `s` after exactly `k + 1` requests of 1 byte. -/
theorem writeRegisterLoop_run (k : Nat) :
    ∀ (bound : Nat) (self : HIH8000Command_I2C) (wire : TwoWire) (statusByte : Nat)
      (s : Nat) (tail : List Nat),
      self.sensorBusy_ = true →
      (∀ i, i < k → ∃ b rest, wire.device (wire.requests + i) = b :: rest ∧
        b < 256 ∧ b % 4 = 0) →
      wire.device (wire.requests + k) = s :: tail →
      s < 256 → s % 4 ≠ 0 → k < bound →
      ∃ w, writeRegisterLoop bound self wire statusByte =
            Outcome.returned s { self with sensorBusy_ := false } w ∧
        w.device = wire.device ∧ w.requests = wire.requests + (k + 1) ∧
        w.traffic = wire.traffic ++
          List.replicate (k + 1) (BusEvent.request self.address_ 1) := by
  induction k with
  | zero =>
    intro bound self wire statusByte s tail hbusy _ hfin hs h4 hk
    obtain ⟨n, rfl⟩ : ∃ n, bound = n + 1 := ⟨bound - 1, by omega⟩
    obtain ⟨w, h1, h2, h3, h5⟩ := writeRegisterLoop_final_step n self wire statusByte
      s tail hbusy (by simpa using hfin) hs h4
    exact ⟨w, h1, h2, h3, by simpa using h5⟩
  | succ k ih =>
    intro bound self wire statusByte s tail hbusy hall hfin hs h4 hk
    obtain ⟨n, rfl⟩ : ∃ n, bound = n + 1 := ⟨bound - 1, by omega⟩
    obtain ⟨b, rest, hdev, hb, hb4⟩ := hall 0 (by omega)
    obtain ⟨w1, e1, d1, r1, t1⟩ := writeRegisterLoop_busy_step n self wire statusByte
      b rest hbusy (by simpa using hdev) hb hb4
    have hall1 : ∀ i, i < k → ∃ b rest, w1.device (w1.requests + i) = b :: rest ∧
        b < 256 ∧ b % 4 = 0 := by
      intro i hi'
      obtain ⟨b', rest', hd', hb', hb4'⟩ := hall (i + 1) (by omega)
      refine ⟨b', rest', ?_, hb', hb4'⟩
      rw [d1, r1, ← hd']
      congr 1
      omega
    have hfin1 : w1.device (w1.requests + k) = s :: tail := by
      rw [d1, r1, ← hfin]
      congr 1
      omega
    obtain ⟨w, e2, d2, r2, t2⟩ := ih n self w1 b s tail hbusy hall1 hfin1
      hs h4 (by omega)
    refine ⟨w, by rw [e1, e2], by rw [d2, d1], by rw [r2, r1]; omega, ?_⟩
    rw [t2, t1, List.append_assoc]
    rfl

/-- The read loop on a device that answers busy for ever: whatever the bound
`n`, the loop is still running after `n` iterations and `n` requests. -/
theorem readRegisterLoop_spin (n : Nat) :
    ∀ (self : HIH8000Command_I2C) (wire : TwoWire) (statusByte : Nat)
      (dataBytes : Option Nat),
      self.sensorBusy_ = true →
      (∀ i, ∃ b rest, wire.device (wire.requests + i) = b :: rest ∧
        b < 256 ∧ b % 4 = 0) →
      ∃ w, readRegisterLoop n self wire statusByte dataBytes = Outcome.polling self w ∧
        w.traffic = wire.traffic ++
          List.replicate n (BusEvent.request self.address_ 3) := by
  induction n with
  | zero =>
    intro self wire statusByte dataBytes hbusy _
    exact ⟨wire, by simp [readRegisterLoop, hbusy], by simp⟩
  | succ n ih =>
    intro self wire statusByte dataBytes hbusy hall
    obtain ⟨b, rest, hdev, hb, hb4⟩ := hall 0
    obtain ⟨w1, e1, d1, r1, t1⟩ := readRegisterLoop_busy_step n self wire statusByte
      dataBytes b rest hbusy (by simpa using hdev) hb hb4
    have hall1 : ∀ i, ∃ b rest, w1.device (w1.requests + i) = b :: rest ∧
        b < 256 ∧ b % 4 = 0 := by
      intro i
      obtain ⟨b', rest', hd', hb', hb4'⟩ := hall (i + 1)
      refine ⟨b', rest', ?_, hb', hb4'⟩
      rw [d1, r1, ← hd']
      congr 1
      omega
    obtain ⟨w, e2, t2⟩ := ih self w1 b dataBytes hbusy hall1
    refine ⟨w, by rw [e1, e2], ?_⟩
    rw [t2, t1, List.append_assoc]
    rfl

/-- The write loop on a device that answers busy for ever. -/
theorem writeRegisterLoop_spin (n : Nat) :
    ∀ (self : HIH8000Command_I2C) (wire : TwoWire) (statusByte : Nat),
      self.sensorBusy_ = true →
      (∀ i, ∃ b rest, wire.device (wire.requests + i) = b :: rest ∧
        b < 256 ∧ b % 4 = 0) →
      ∃ w, writeRegisterLoop n self wire statusByte = Outcome.polling self w ∧
        w.traffic = wire.traffic ++
          List.replicate n (BusEvent.request self.address_ 1) := by
  induction n with
  | zero =>
    intro self wire statusByte hbusy _
    exact ⟨wire, by simp [writeRegisterLoop, hbusy], by simp⟩
  | succ n ih =>
    intro self wire statusByte hbusy hall
    obtain ⟨b, rest, hdev, hb, hb4⟩ := hall 0
    obtain ⟨w1, e1, d1, r1, t1⟩ := writeRegisterLoop_busy_step n self wire statusByte
      b rest hbusy (by simpa using hdev) hb hb4
    have hall1 : ∀ i, ∃ b rest, w1.device (w1.requests + i) = b :: rest ∧
        b < 256 ∧ b % 4 = 0 := by
      intro i
      obtain ⟨b', rest', hd', hb', hb4'⟩ := hall (i + 1)
      refine ⟨b', rest', ?_, hb', hb4'⟩
      rw [d1, r1, ← hd']
      congr 1
      omega
    obtain ⟨w, e2, t2⟩ := ih self w1 b hbusy hall1
    refine ⟨w, by rw [e1, e2], ?_⟩
    rw [t2, t1, List.append_assoc]
    rfl

theorem read_traffic (w : TwoWire) : w.read.2.traffic = w.traffic := by
  unfold TwoWire.read
  split <;> rfl

/-- Whatever the device answers and whatever the bound, the write loop puts
nothing on the bus but requests of 1 byte, at most `bound` of them. -/
theorem writeRegisterLoop_traffic (bound : Nat) :
    ∀ (self : HIH8000Command_I2C) (wire : TwoWire) (statusByte : Nat),
      ∃ j, j ≤ bound ∧
        (writeRegisterLoop bound self wire statusByte).wire.traffic =
          wire.traffic ++ List.replicate j (BusEvent.request self.address_ 1) := by
  induction bound with
  | zero =>
    intro self wire statusByte
    refine ⟨0, le_refl 0, ?_⟩
    unfold writeRegisterLoop
    split <;> simp [Outcome.wire]
  | succ n ih =>
    intro self wire statusByte
    unfold writeRegisterLoop
    by_cases hbusy : self.sensorBusy_ = true
    · simp only [hbusy, if_true]
      split
      · obtain ⟨j, hj, ht⟩ := ih { self with sensorBusy_ := false }
          ((wire.requestFrom self.address_ RESPONSEBYTECOUNT_WRITE_).read).2
          (toUInt8 ((wire.requestFrom self.address_ RESPONSEBYTECOUNT_WRITE_).read).1)
        refine ⟨j + 1, by omega, ?_⟩
        rw [ht, read_traffic]
        simp [TwoWire.requestFrom, RESPONSEBYTECOUNT_WRITE_, List.replicate_succ]
      · obtain ⟨j, hj, ht⟩ := ih self
          ((wire.requestFrom self.address_ RESPONSEBYTECOUNT_WRITE_).read).2
          (toUInt8 ((wire.requestFrom self.address_ RESPONSEBYTECOUNT_WRITE_).read).1)
        refine ⟨j + 1, by omega, ?_⟩
        rw [ht, read_traffic]
        simp [TwoWire.requestFrom, RESPONSEBYTECOUNT_WRITE_, List.replicate_succ]
    · refine ⟨0, by omega, ?_⟩
      simp [hbusy, Outcome.wire]

/-! ## The register transactions -/

/-- A read transaction in command mode, on `k` busy answers followed by a
not-busy answer `{s, hi, lo}`. -/
theorem readRegister_run (k bound : Nat) (self : HIH8000Command_I2C) (wire : TwoWire)
    (command s hi lo : Nat)
    (hmode : self.inCommandMode_ = true)
    (hall : ∀ i, i < k → ∃ b rest, wire.device (wire.requests + i) = b :: rest ∧
      b < 256 ∧ b % 4 = 0)
    (hfin : wire.device (wire.requests + k) = [s, hi, lo])
    (hs : s < 256) (hhi : hi < 256) (hlo : lo < 256) (h4 : s % 4 ≠ 0)
    (hk : k < bound) :
    ∃ w, readRegister bound self wire command =
          Outcome.returned (some (s.testBit 0), some (hi * 256 + lo))
            { self with sensorBusy_ := false } w ∧
      w.device = wire.device ∧ w.requests = wire.requests + (k + 1) ∧
      w.traffic = wire.traffic ++
        BusEvent.frame self.address_ [command % 256, 0, 0] ::
          List.replicate (k + 1) (BusEvent.request self.address_ 3) := by
  obtain ⟨w, e, d, r, t⟩ := readRegisterLoop_run k bound
    { self with sensorBusy_ := true }
    (((((wire.beginTransmission self.address_).write command).write DATA_DUMMY_).write
      DATA_DUMMY_).endTransmission) 0 none s hi lo rfl hall hfin hs hhi hlo h4 hk
  refine ⟨w, ?_, d, r, ?_⟩
  · unfold readRegister
    rw [if_pos hmode]
    dsimp only
    rw [e]
    by_cases hbit : s.testBit 0 = true
    · have h1 : s &&& 0x01 ≠ 0 := (and_one_ne_zero_iff s).2 hbit
      simp only [hbit]
      rw [if_pos h1]
    · have h1 : ¬ (s &&& 0x01 ≠ 0) := fun h => hbit ((and_one_ne_zero_iff s).1 h)
      simp only [Bool.not_eq_true] at hbit
      simp only [h1, if_false, hbit]
  · rw [t]
    simp [TwoWire.beginTransmission, TwoWire.write, TwoWire.endTransmission, DATA_DUMMY_]

/-- The two bytes that `writeRegister` sends after the command byte. -/
theorem dataByte_mod (x : Nat) (hx : x < 65536) :
    (x >>> 8) % 256 = x >>> 8 ∧ (x &&& 0xFF) % 256 = x &&& 0xFF := by
  constructor
  · apply Nat.mod_eq_of_lt
    rw [Nat.shiftRight_eq_div_pow]
    omega
  · apply Nat.mod_eq_of_lt
    have h := @Nat.and_le_right x 0xFF
    omega

theorem combined_lt (oldDataBytes newDataBytes : Nat) (bitwiseOr : Bool)
    (ho : oldDataBytes < 65536) (hn : newDataBytes < 65536) :
    (if bitwiseOr then oldDataBytes ||| newDataBytes
      else oldDataBytes &&& newDataBytes) < 65536 := by
  cases bitwiseOr
  · have h := @Nat.and_le_right oldDataBytes newDataBytes
    simp only [Bool.false_eq_true, if_false]
    omega
  · simp only [if_true]
    exact @Nat.or_lt_two_pow oldDataBytes newDataBytes 16 ho hn

/-- A write transaction in command mode, on `k` busy status bytes followed by
a not-busy status `s`. -/
theorem writeRegister_run (k bound : Nat) (self : HIH8000Command_I2C) (wire : TwoWire)
    (command oldDataBytes newDataBytes : Nat) (bitwiseOr : Bool) (s : Nat)
    (tail : List Nat)
    (hmode : self.inCommandMode_ = true)
    (ho : oldDataBytes < 65536) (hn : newDataBytes < 65536)
    (hall : ∀ i, i < k → ∃ b rest, wire.device (wire.requests + i) = b :: rest ∧
      b < 256 ∧ b % 4 = 0)
    (hfin : wire.device (wire.requests + k) = s :: tail)
    (hs : s < 256) (h4 : s % 4 ≠ 0) (hk : k < bound) :
    ∃ w, writeRegister bound self wire command oldDataBytes newDataBytes bitwiseOr =
          Outcome.returned (some (s.testBit 0)) { self with sensorBusy_ := false } w ∧
      w.device = wire.device ∧ w.requests = wire.requests + (k + 1) ∧
      w.traffic = wire.traffic ++
        BusEvent.frame self.address_
          [command % 256,
           (if bitwiseOr then oldDataBytes ||| newDataBytes
             else oldDataBytes &&& newDataBytes) >>> 8,
           (if bitwiseOr then oldDataBytes ||| newDataBytes
             else oldDataBytes &&& newDataBytes) &&& 0xFF] ::
          List.replicate (k + 1) (BusEvent.request self.address_ 1) := by
  obtain ⟨hb1, hb2⟩ := dataByte_mod _ (combined_lt oldDataBytes newDataBytes bitwiseOr ho hn)
  obtain ⟨w, e, d, r, t⟩ := writeRegisterLoop_run k bound
    { self with sensorBusy_ := true }
    (((((wire.beginTransmission self.address_).write command).write
      (((if bitwiseOr then oldDataBytes ||| newDataBytes
          else oldDataBytes &&& newDataBytes) >>> 8) % 256)).write
      ((if bitwiseOr then oldDataBytes ||| newDataBytes
          else oldDataBytes &&& newDataBytes) &&& 0xFF)).endTransmission)
    0 s tail rfl hall hfin hs h4 hk
  refine ⟨w, ?_, d, r, ?_⟩
  · unfold writeRegister
    rw [if_pos hmode]
    dsimp only
    rw [e]
    by_cases hbit : s.testBit 0 = true
    · have h1 : s &&& 0x01 ≠ 0 := (and_one_ne_zero_iff s).2 hbit
      simp only [hbit]
      rw [if_pos h1]
    · have h1 : ¬ (s &&& 0x01 ≠ 0) := fun h => hbit ((and_one_ne_zero_iff s).1 h)
      simp only [Bool.not_eq_true] at hbit
      simp only [h1, if_false, hbit]
  · rw [t]
    simp only [TwoWire.beginTransmission, TwoWire.write, TwoWire.endTransmission,
      List.nil_append, List.cons_append, Nat.mod_mod, hb1, hb2, List.append_assoc]

/-- A read transaction in command mode on a device that answers busy for
ever: for every bound the transaction is still polling, one frame and `bound`
requests of 3 bytes having gone over the bus. -/
theorem readRegister_spin (bound : Nat) (self : HIH8000Command_I2C) (wire : TwoWire)
    (command : Nat)
    (hmode : self.inCommandMode_ = true)
    (hall : ∀ i, ∃ b rest, wire.device (wire.requests + i) = b :: rest ∧
      b < 256 ∧ b % 4 = 0) :
    ∃ w, readRegister bound self wire command =
          Outcome.polling { self with sensorBusy_ := true } w ∧
      w.traffic = wire.traffic ++
        BusEvent.frame self.address_ [command % 256, 0, 0] ::
          List.replicate bound (BusEvent.request self.address_ 3) := by
  obtain ⟨w, e, t⟩ := readRegisterLoop_spin bound
    { self with sensorBusy_ := true }
    (((((wire.beginTransmission self.address_).write command).write DATA_DUMMY_).write
      DATA_DUMMY_).endTransmission) 0 none rfl hall
  refine ⟨w, ?_, ?_⟩
  · unfold readRegister
    rw [if_pos hmode]
    dsimp only
    rw [e]
  · rw [t]
    simp [TwoWire.beginTransmission, TwoWire.write, TwoWire.endTransmission, DATA_DUMMY_]

/-- A write transaction in command mode on a device that answers busy for
ever. -/
theorem writeRegister_spin (bound : Nat) (self : HIH8000Command_I2C) (wire : TwoWire)
    (command oldDataBytes newDataBytes : Nat) (bitwiseOr : Bool)
    (hmode : self.inCommandMode_ = true)
    (hall : ∀ i, ∃ b rest, wire.device (wire.requests + i) = b :: rest ∧
      b < 256 ∧ b % 4 = 0) :
    ∃ w, writeRegister bound self wire command oldDataBytes newDataBytes bitwiseOr =
          Outcome.polling { self with sensorBusy_ := true } w ∧
      w.traffic = wire.traffic ++
        BusEvent.frame self.address_
          [command % 256,
           ((if bitwiseOr then oldDataBytes ||| newDataBytes
             else oldDataBytes &&& newDataBytes) >>> 8) % 256,
           ((if bitwiseOr then oldDataBytes ||| newDataBytes
             else oldDataBytes &&& newDataBytes) &&& 0xFF) % 256] ::
          List.replicate bound (BusEvent.request self.address_ 1) := by
  obtain ⟨w, e, t⟩ := writeRegisterLoop_spin bound
    { self with sensorBusy_ := true }
    (((((wire.beginTransmission self.address_).write command).write
      (((if bitwiseOr then oldDataBytes ||| newDataBytes
          else oldDataBytes &&& newDataBytes) >>> 8) % 256)).write
      ((if bitwiseOr then oldDataBytes ||| newDataBytes
          else oldDataBytes &&& newDataBytes) &&& 0xFF)).endTransmission)
    0 rfl hall
  refine ⟨w, ?_, ?_⟩
  · unfold writeRegister
    rw [if_pos hmode]
    dsimp only
    rw [e]
  · rw [t]
    simp only [TwoWire.beginTransmission, TwoWire.write, TwoWire.endTransmission,
      List.nil_append, List.cons_append, Nat.mod_mod, List.append_assoc]

/-! ## The claims -/

/-- C1: with `inCommandMode_` false, `readRegister` and `writeRegister` leave
the object and the bus exactly as they were (no frame, no read request), but
they return no defined value: control reaches the end of the function body
without a `return`, so no failure is reported. -/
theorem register_access_in_normal_mode (bound : Nat) (self : HIH8000Command_I2C)
    (wire : TwoWire) (command oldDataBytes newDataBytes : Nat) (bitwiseOr : Bool)
    (hmode : self.inCommandMode_ = false) :
    readRegister bound self wire command = Outcome.returned (none, none) self wire ∧
    writeRegister bound self wire command oldDataBytes newDataBytes bitwiseOr =
      Outcome.returned none self wire := by
  simp [readRegister, writeRegister, hmode]

theorem register_access_in_normal_mode_witness :
    readRegister 8 ⟨true, false, false, 0x27⟩ ⟨0, [], [], fun _ => [0x81, 0, 0], 0, []⟩ 0x1C
      = Outcome.returned (none, none) ⟨true, false, false, 0x27⟩
          ⟨0, [], [], fun _ => [0x81, 0, 0], 0, []⟩ ∧
    writeRegister 8 ⟨true, false, false, 0x27⟩ ⟨0, [], [], fun _ => [0x81, 0, 0], 0, []⟩
      0x5C 0x0000 0x0040 true
      = Outcome.returned none ⟨true, false, false, 0x27⟩
          ⟨0, [], [], fun _ => [0x81, 0, 0], 0, []⟩ :=
  register_access_in_normal_mode 8 ⟨true, false, false, 0x27⟩
    ⟨0, [], [], fun _ => [0x81, 0, 0], 0, []⟩ 0x1C 0x0000 0x0040 true rfl

/-- C2 (as stated, refuted): on the device that answers `{0x80, 0, 0}` to every
read request, there is no bound on the number of loop iterations within which
`readRegister` or `writeRegister` (in command mode) returns anything, a
Timeout failure included: both busy-poll loops run for ever. -/
theorem busy_poll_has_no_timeout :
    ¬ ∃ bound : Nat,
      (readRegister bound ⟨true, true, false, 0x27⟩
        ⟨0, [], [], fun _ => [0x80, 0, 0], 0, []⟩ 0x1C).value? ≠ none ∨
      (writeRegister bound ⟨true, true, false, 0x27⟩
        ⟨0, [], [], fun _ => [0x80, 0, 0], 0, []⟩ 0x5C 0x0000 0x0040 true).value? ≠ none := by
  rintro ⟨bound, h⟩
  obtain ⟨w, e, _⟩ := readRegister_spin bound ⟨true, true, false, 0x27⟩
    ⟨0, [], [], fun _ => [0x80, 0, 0], 0, []⟩ 0x1C rfl
    (fun _ => ⟨0x80, [0, 0], rfl, by decide, by decide⟩)
  obtain ⟨w', e', _⟩ := writeRegister_spin bound ⟨true, true, false, 0x27⟩
    ⟨0, [], [], fun _ => [0x80, 0, 0], 0, []⟩ 0x5C 0x0000 0x0040 true rfl
    (fun _ => ⟨0x80, [0, 0], rfl, by decide, by decide⟩)
  rw [e, e'] at h
  simp [Outcome.value?] at h

/-- C2 (amended): in command mode, on a response stream in which every status
byte has its low two bits zero, the busy-poll loops of `readRegister` and
`writeRegister` never return and report nothing: for every bound `n` on the
number of iterations the call is still polling, having sent its one frame
followed by exactly `n` read requests (of 3 bytes, respectively of 1 byte). -/
theorem busy_poll_never_returns (bound : Nat) (self : HIH8000Command_I2C)
    (wire : TwoWire) (command oldDataBytes newDataBytes : Nat) (bitwiseOr : Bool)
    (hmode : self.inCommandMode_ = true)
    (hall : ∀ i, ∃ b rest, wire.device (wire.requests + i) = b :: rest ∧
      b < 256 ∧ b % 4 = 0) :
    (readRegister bound self wire command).value? = none ∧
    (readRegister bound self wire command).wire.traffic =
      wire.traffic ++ BusEvent.frame self.address_ [command % 256, 0, 0] ::
        List.replicate bound (BusEvent.request self.address_ 3) ∧
    (writeRegister bound self wire command oldDataBytes newDataBytes bitwiseOr).value?
      = none ∧
    (writeRegister bound self wire command oldDataBytes newDataBytes
        bitwiseOr).wire.traffic =
      wire.traffic ++
        BusEvent.frame self.address_
          [command % 256,
           ((if bitwiseOr then oldDataBytes ||| newDataBytes
             else oldDataBytes &&& newDataBytes) >>> 8) % 256,
           ((if bitwiseOr then oldDataBytes ||| newDataBytes
             else oldDataBytes &&& newDataBytes) &&& 0xFF) % 256] ::
          List.replicate bound (BusEvent.request self.address_ 1) := by
  obtain ⟨w, e, t⟩ := readRegister_spin bound self wire command hmode hall
  obtain ⟨w', e', t'⟩ := writeRegister_spin bound self wire command oldDataBytes
    newDataBytes bitwiseOr hmode hall
  rw [e, e']
  exact ⟨rfl, t, rfl, t'⟩

theorem busy_poll_never_returns_witness :
    (readRegister 5 ⟨true, true, false, 0x27⟩
      ⟨0, [], [], fun _ => [0x80, 0, 0], 0, []⟩ 0x1C).value? = none ∧
    (readRegister 5 ⟨true, true, false, 0x27⟩
      ⟨0, [], [], fun _ => [0x80, 0, 0], 0, []⟩ 0x1C).wire.traffic =
      [] ++ BusEvent.frame 0x27 [0x1C % 256, 0, 0] ::
        List.replicate 5 (BusEvent.request 0x27 3) ∧
    (writeRegister 5 ⟨true, true, false, 0x27⟩
      ⟨0, [], [], fun _ => [0x80, 0, 0], 0, []⟩ 0x1C 0x0000 0x0040 true).value? = none ∧
    (writeRegister 5 ⟨true, true, false, 0x27⟩
      ⟨0, [], [], fun _ => [0x80, 0, 0], 0, []⟩ 0x1C 0x0000 0x0040 true).wire.traffic =
      [] ++
        BusEvent.frame 0x27
          [0x1C % 256,
           ((if true = true then 0x0000 ||| 0x0040 else 0x0000 &&& 0x0040) >>> 8) % 256,
           ((if true = true then 0x0000 ||| 0x0040 else 0x0000 &&& 0x0040) &&& 0xFF) % 256] ::
          List.replicate 5 (BusEvent.request 0x27 1) :=
  busy_poll_never_returns 5 ⟨true, true, false, 0x27⟩
    ⟨0, [], [], fun _ => [0x80, 0, 0], 0, []⟩ 0x1C 0x0000 0x0040 true rfl
    (fun _ => ⟨0x80, [0, 0], rfl, by decide, by decide⟩)

/-- C3: at `h = 50` the round trip is off by 50, far more than one LSB
(`100/16382`): `humidityToBits` casts `humidity` to an integer before dividing
by 100, so `humidityToBits 50` is 0 and `bitsToHumidity 0` is 0. -/
theorem humidity_round_trip_at_50 :
    humidityToBits 50 = some 0 ∧ bitsToHumidity 0 = 0 ∧
    ¬ (|bitsToHumidity 0 - 50| ≤ (100 : ℚ) / 16382) := by
  refine ⟨by decide, by simp [bitsToHumidity], ?_⟩
  simp only [bitsToHumidity]
  norm_num [abs_le]

/-- C5: in command mode, for every command byte, every 16-bit old and new
value and either combine mode, whatever the device answers and however long
the call is followed, `writeRegister` transmits exactly one frame, the three
bytes `{command, combined >> 8, combined & 0xFF}` with `combined = old | new`
for OR and `old & new` for AND; everything else on the bus is `j` read
requests of one byte. -/
theorem writeRegister_frame (bound : Nat) (self : HIH8000Command_I2C) (wire : TwoWire)
    (command oldDataBytes newDataBytes : Nat) (bitwiseOr : Bool)
    (hmode : self.inCommandMode_ = true) (hc : command < 256)
    (ho : oldDataBytes < 65536) (hn : newDataBytes < 65536) :
    ∃ j, j ≤ bound ∧
      (writeRegister bound self wire command oldDataBytes newDataBytes
          bitwiseOr).wire.traffic =
        wire.traffic ++
          BusEvent.frame self.address_
            [command,
             (if bitwiseOr then oldDataBytes ||| newDataBytes
               else oldDataBytes &&& newDataBytes) >>> 8,
             (if bitwiseOr then oldDataBytes ||| newDataBytes
               else oldDataBytes &&& newDataBytes) &&& 0xFF] ::
            List.replicate j (BusEvent.request self.address_ 1) := by
  obtain ⟨hb1, hb2⟩ := dataByte_mod _ (combined_lt oldDataBytes newDataBytes bitwiseOr ho hn)
  obtain ⟨j, hj, ht⟩ := writeRegisterLoop_traffic bound
    { self with sensorBusy_ := true }
    (((((wire.beginTransmission self.address_).write command).write
      (((if bitwiseOr then oldDataBytes ||| newDataBytes
          else oldDataBytes &&& newDataBytes) >>> 8) % 256)).write
      ((if bitwiseOr then oldDataBytes ||| newDataBytes
          else oldDataBytes &&& newDataBytes) &&& 0xFF)).endTransmission) 0
  refine ⟨j, hj, ?_⟩
  have hw : (writeRegister bound self wire command oldDataBytes newDataBytes
      bitwiseOr).wire =
      (writeRegisterLoop bound { self with sensorBusy_ := true }
        (((((wire.beginTransmission self.address_).write command).write
          (((if bitwiseOr then oldDataBytes ||| newDataBytes
              else oldDataBytes &&& newDataBytes) >>> 8) % 256)).write
          ((if bitwiseOr then oldDataBytes ||| newDataBytes
              else oldDataBytes &&& newDataBytes) &&& 0xFF)).endTransmission) 0).wire := by
    unfold writeRegister
    rw [if_pos hmode]
    dsimp only
    cases writeRegisterLoop bound { self with sensorBusy_ := true }
        (((((wire.beginTransmission self.address_).write command).write
          (((if bitwiseOr then oldDataBytes ||| newDataBytes
              else oldDataBytes &&& newDataBytes) >>> 8) % 256)).write
          ((if bitwiseOr then oldDataBytes ||| newDataBytes
              else oldDataBytes &&& newDataBytes) &&& 0xFF)).endTransmission) 0 with
    | polling s w => rfl
    | returned v s w =>
      dsimp only
      split <;> rfl
  rw [hw, ht]
  simp only [TwoWire.beginTransmission, TwoWire.write, TwoWire.endTransmission,
    List.nil_append, List.cons_append, Nat.mod_mod, hb1, hb2, List.append_assoc,
    Nat.mod_eq_of_lt hc]

theorem writeRegister_frame_witness :
    (∃ j, j ≤ 4 ∧
      (writeRegister 4 ⟨true, true, false, 0x27⟩ ⟨0, [], [], fun _ => [0x81], 0, []⟩
          0x5C 0x0000 0x0040 true).wire.traffic =
        [] ++
          BusEvent.frame 0x27
            [0x5C,
             (if true = true then 0x0000 ||| 0x0040 else 0x0000 &&& 0x0040) >>> 8,
             (if true = true then 0x0000 ||| 0x0040 else 0x0000 &&& 0x0040) &&& 0xFF] ::
            List.replicate j (BusEvent.request 0x27 1)) ∧
    (∃ j, j ≤ 4 ∧
      (writeRegister 4 ⟨true, true, false, 0x27⟩ ⟨0, [], [], fun _ => [0x81], 0, []⟩
          0x5C 0xFFFF 0xFF80 false).wire.traffic =
        [] ++
          BusEvent.frame 0x27
            [0x5C,
             (if false = true then 0xFFFF ||| 0xFF80 else 0xFFFF &&& 0xFF80) >>> 8,
             (if false = true then 0xFFFF ||| 0xFF80 else 0xFFFF &&& 0xFF80) &&& 0xFF] ::
            List.replicate j (BusEvent.request 0x27 1)) ∧
    [(if true = true then 0x0000 ||| 0x0040 else 0x0000 &&& 0x0040) >>> 8,
      (if true = true then 0x0000 ||| 0x0040 else 0x0000 &&& 0x0040) &&& 0xFF]
        = [0x00, 0x40] ∧
    [(if false = true then 0xFFFF ||| 0xFF80 else 0xFFFF &&& 0xFF80) >>> 8,
      (if false = true then 0xFFFF ||| 0xFF80 else 0xFFFF &&& 0xFF80) &&& 0xFF]
        = [0xFF, 0x80] :=
  ⟨writeRegister_frame 4 ⟨true, true, false, 0x27⟩ ⟨0, [], [], fun _ => [0x81], 0, []⟩
      0x5C 0x0000 0x0040 true rfl (by decide) (by decide) (by decide),
   writeRegister_frame 4 ⟨true, true, false, 0x27⟩ ⟨0, [], [], fun _ => [0x81], 0, []⟩
      0x5C 0xFFFF 0xFF80 false rfl (by decide) (by decide) (by decide),
   by decide, by decide⟩

/-- C6: in command mode, on `k` busy answers (status low two bits zero)
followed by an answer `{s, hi, lo}` with `s & 0x03 != 0`, `readRegister`
returns (for every bound above `k`), issues exactly `k + 1` read requests of
3 bytes after its frame `{command, 0, 0}`, yields `hi * 256 + lo`, and its
result is true exactly when bit 0 of `s` is set. -/
theorem readRegister_value (k bound : Nat) (self : HIH8000Command_I2C) (wire : TwoWire)
    (command s hi lo : Nat)
    (hmode : self.inCommandMode_ = true) (hc : command < 256)
    (hall : ∀ i, i < k → ∃ b rest, wire.device (wire.requests + i) = b :: rest ∧
      b < 256 ∧ b % 4 = 0)
    (hfin : wire.device (wire.requests + k) = [s, hi, lo])
    (hs : s < 256) (hhi : hi < 256) (hlo : lo < 256) (h4 : s % 4 ≠ 0)
    (hk : k < bound) :
    (readRegister bound self wire command).value? =
      some (some (s.testBit 0), some (hi * 256 + lo)) ∧
    (readRegister bound self wire command).wire.traffic =
      wire.traffic ++ BusEvent.frame self.address_ [command, 0, 0] ::
        List.replicate (k + 1) (BusEvent.request self.address_ 3) := by
  obtain ⟨w, e, _, _, t⟩ := readRegister_run k bound self wire command s hi lo hmode
    hall hfin hs hhi hlo h4 hk
  rw [e]
  refine ⟨rfl, ?_⟩
  rw [Nat.mod_eq_of_lt hc] at t
  exact t

theorem readRegister_value_witness :
    (readRegister 3 ⟨true, true, false, 0x27⟩
        ⟨0, [], [], fun i => if i < 2 then [0x80, 0, 0] else [0x81, 0x12, 0x34], 0, []⟩
        0x1C).value? =
      some (some (Nat.testBit 0x81 0), some (0x12 * 256 + 0x34)) ∧
    (readRegister 3 ⟨true, true, false, 0x27⟩
        ⟨0, [], [], fun i => if i < 2 then [0x80, 0, 0] else [0x81, 0x12, 0x34], 0, []⟩
        0x1C).wire.traffic =
      [] ++ BusEvent.frame 0x27 [0x1C, 0, 0] ::
        List.replicate (2 + 1) (BusEvent.request 0x27 3) :=
  readRegister_value 2 3 ⟨true, true, false, 0x27⟩
    ⟨0, [], [], fun i => if i < 2 then [0x80, 0, 0] else [0x81, 0x12, 0x34], 0, []⟩
    0x1C 0x81 0x12 0x34 rfl (by decide)
    (fun i hi => ⟨0x80, [0, 0], by simp [hi], by decide, by decide⟩)
    (by simp) (by decide) (by decide) (by decide) (by decide) (by decide)

/-- C7: in command mode, on `k` status bytes with low two bits zero followed by
a status byte `s` with `s & 0x03 != 0`, `writeRegister` returns (for every
bound above `k`), issues exactly `k + 1` read requests of 1 byte after its
frame, and its result is true exactly when bit 0 of `s` is set; a final
status with low bits `0b10` therefore gives false. -/
theorem writeRegister_value (k bound : Nat) (self : HIH8000Command_I2C) (wire : TwoWire)
    (command oldDataBytes newDataBytes : Nat) (bitwiseOr : Bool) (s : Nat)
    (tail : List Nat)
    (hmode : self.inCommandMode_ = true) (hc : command < 256)
    (ho : oldDataBytes < 65536) (hn : newDataBytes < 65536)
    (hall : ∀ i, i < k → ∃ b rest, wire.device (wire.requests + i) = b :: rest ∧
      b < 256 ∧ b % 4 = 0)
    (hfin : wire.device (wire.requests + k) = s :: tail)
    (hs : s < 256) (h4 : s % 4 ≠ 0) (hk : k < bound) :
    (writeRegister bound self wire command oldDataBytes newDataBytes bitwiseOr).value?
      = some (some (s.testBit 0)) ∧
    (s % 4 = 2 →
      (writeRegister bound self wire command oldDataBytes newDataBytes bitwiseOr).value?
        = some (some false)) ∧
    (writeRegister bound self wire command oldDataBytes newDataBytes
        bitwiseOr).wire.traffic =
      wire.traffic ++
        BusEvent.frame self.address_
          [command,
           (if bitwiseOr then oldDataBytes ||| newDataBytes
             else oldDataBytes &&& newDataBytes) >>> 8,
           (if bitwiseOr then oldDataBytes ||| newDataBytes
             else oldDataBytes &&& newDataBytes) &&& 0xFF] ::
          List.replicate (k + 1) (BusEvent.request self.address_ 1) := by
  obtain ⟨w, e, _, _, t⟩ := writeRegister_run k bound self wire command oldDataBytes
    newDataBytes bitwiseOr s tail hmode ho hn hall hfin hs h4 hk
  rw [e]
  refine ⟨rfl, ?_, ?_⟩
  · intro h2
    have hbit : s.testBit 0 = false := by
      rw [Nat.testBit_zero]
      simp
      omega
    simp [Outcome.value?, hbit]
  · rw [Nat.mod_eq_of_lt hc] at t
    exact t

theorem writeRegister_value_witness :
    (writeRegister 3 ⟨true, true, false, 0x27⟩
        ⟨0, [], [], fun i => if i < 2 then [0x80] else [0x82], 0, []⟩
        0x5C 0x0000 0x0040 true).value? = some (some (Nat.testBit 0x82 0)) ∧
    (0x82 % 4 = 2 →
      (writeRegister 3 ⟨true, true, false, 0x27⟩
        ⟨0, [], [], fun i => if i < 2 then [0x80] else [0x82], 0, []⟩
        0x5C 0x0000 0x0040 true).value? = some (some false)) ∧
    (writeRegister 3 ⟨true, true, false, 0x27⟩
        ⟨0, [], [], fun i => if i < 2 then [0x80] else [0x82], 0, []⟩
        0x5C 0x0000 0x0040 true).wire.traffic =
      [] ++
        BusEvent.frame 0x27
          [0x5C,
           (if true = true then 0x0000 ||| 0x0040 else 0x0000 &&& 0x0040) >>> 8,
           (if true = true then 0x0000 ||| 0x0040 else 0x0000 &&& 0x0040) &&& 0xFF] ::
          List.replicate (2 + 1) (BusEvent.request 0x27 1) :=
  writeRegister_value 2 3 ⟨true, true, false, 0x27⟩
    ⟨0, [], [], fun i => if i < 2 then [0x80] else [0x82], 0, []⟩
    0x5C 0x0000 0x0040 true 0x82 [] rfl (by decide) (by decide) (by decide)
    (fun i hi => ⟨0x80, [], by simp [hi], by decide, by decide⟩)
    (by simp) (by decide) (by decide) (by decide)

/-- The word `(c & 0xFF80) | n` is made of the high byte of `c` and of the low
byte `(c & 0x80) | n`. -/
theorem addressWord_bytes (c n : Nat) (hc : c < 65536) (hn : n ≤ 0x7F) :
    (c >>> 8) * 256 + ((c &&& 0x80) ||| n) = (c &&& 0xFF80) ||| n := by
  have h1 := addressWord_shiftRight c n hc hn
  have h2 := addressWord_low c n hn
  have h3 : (c &&& 0xFF80 ||| n) &&& 0xFF = (c &&& 0xFF80 ||| n) % 256 := by
    have h := Nat.and_pow_two_sub_one_eq_mod (c &&& 0xFF80 ||| n) 8
    norm_num at h
    exact h
  have h4 : (c &&& 0xFF80 ||| n) >>> 8 = (c &&& 0xFF80 ||| n) / 256 := by
    rw [Nat.shiftRight_eq_div_pow]
  rw [← h1, ← h2, h3, h4]
  omega

/-- C4: in command mode, for a new address `n <= 0x7F` and a customer-config
word `c = hi * 256 + lo` that the device returns with a positive acknowledge
(after `k1` busy answers), `changeAddress n` sends `{0x1C, 0, 0}`, polls
`k1 + 1` times, then sends exactly one write frame
`{0x5C, c >> 8, (c & 0x80) | n}`, which is the word `(c & 0xFF80) | n` (bits
0..6 those of `n`, bits 7..15 those of `c`), polls `k2 + 1` times and returns
bit 0 of the final status byte `s2` of the write. -/
theorem changeAddress_frames (k1 k2 bound : Nat) (self : HIH8000Command_I2C)
    (wire : TwoWire) (n s1 hi lo s2 : Nat) (tail : List Nat)
    (hmode : self.inCommandMode_ = true) (hn : n ≤ 0x7F)
    (hall1 : ∀ i, i < k1 → ∃ b rest, wire.device (wire.requests + i) = b :: rest ∧
      b < 256 ∧ b % 4 = 0)
    (hfin1 : wire.device (wire.requests + k1) = [s1, hi, lo])
    (hs1 : s1 < 256) (hhi : hi < 256) (hlo : lo < 256) (h41 : s1 % 4 ≠ 0)
    (hack : s1.testBit 0 = true)
    (hall2 : ∀ i, i < k2 → ∃ b rest,
      wire.device (wire.requests + (k1 + 1) + i) = b :: rest ∧ b < 256 ∧ b % 4 = 0)
    (hfin2 : wire.device (wire.requests + (k1 + 1) + k2) = s2 :: tail)
    (hs2 : s2 < 256) (h42 : s2 % 4 ≠ 0)
    (hk1 : k1 < bound) (hk2 : k2 < bound) :
    (changeAddress bound self wire n).value? = some (some (s2.testBit 0)) ∧
    (changeAddress bound self wire n).wire.traffic =
      wire.traffic ++
        (BusEvent.frame self.address_ [0x1C, 0x00, 0x00] ::
          List.replicate (k1 + 1) (BusEvent.request self.address_ 3)) ++
        (BusEvent.frame self.address_
            [0x5C, (hi * 256 + lo) >>> 8, ((hi * 256 + lo) &&& 0x80) ||| n] ::
          List.replicate (k2 + 1) (BusEvent.request self.address_ 1)) ∧
    ((hi * 256 + lo) >>> 8) * 256 + (((hi * 256 + lo) &&& 0x80) ||| n) =
      ((hi * 256 + lo) &&& 0xFF80) ||| n ∧
    ∀ i, (((hi * 256 + lo) &&& 0xFF80) ||| n).testBit i =
      if i < 7 then n.testBit i else (hi * 256 + lo).testBit i := by
  have hc : hi * 256 + lo < 65536 := by omega
  obtain ⟨w1, e1, d1, r1, t1⟩ := readRegister_run k1 bound self wire
    COMMAND_READ_CUSTCONFIG_ s1 hi lo hmode hall1 hfin1 hs1 hhi hlo h41 hk1
  have hand : (hi * 256 + lo) &&& DATA_ADDRESS_CLEAR_ < 65536 := by
    have h := @Nat.and_le_left (hi * 256 + lo) DATA_ADDRESS_CLEAR_
    omega
  obtain ⟨w2, e2, _, _, t2⟩ := writeRegister_run k2 bound
    { self with sensorBusy_ := false } w1 COMMAND_WRITE_CUSTCONFIG_
    ((hi * 256 + lo) &&& DATA_ADDRESS_CLEAR_) n true s2 tail hmode hand (by omega)
    (by rw [d1, r1]; exact hall2) (by rw [d1, r1]; exact hfin2) hs2 h42 hk2
  have hrun : changeAddress bound self wire n =
      Outcome.returned (some (s2.testBit 0))
        { ({ self with sensorBusy_ := false } : HIH8000Command_I2C) with
          sensorBusy_ := false } w2 := by
    unfold changeAddress readCustConfig
    rw [if_pos hn, e1, hack]
    dsimp only
    rw [e2]
  rw [hrun]
  refine ⟨rfl, ?_, addressWord_bytes _ n hc hn, fun i => addressWord_testBit _ n i hc hn⟩
  simp only [Outcome.wire]
  rw [t2, t1]
  simp only [if_true, DATA_ADDRESS_CLEAR_, addressWord_shiftRight _ n hc hn,
    addressWord_low _ n hn, COMMAND_READ_CUSTCONFIG_, COMMAND_WRITE_CUSTCONFIG_,
    List.append_assoc]

theorem changeAddress_frames_witness :
    (changeAddress 2 ⟨true, true, false, 0x27⟩
        ⟨0, [], [], fun i => if i = 0 then [0x81, 0x12, 0xA7] else [0x81], 0, []⟩
        0x20).value? = some (some (Nat.testBit 0x81 0)) ∧
    (changeAddress 2 ⟨true, true, false, 0x27⟩
        ⟨0, [], [], fun i => if i = 0 then [0x81, 0x12, 0xA7] else [0x81], 0, []⟩
        0x20).wire.traffic =
      [] ++
        (BusEvent.frame 0x27 [0x1C, 0x00, 0x00] ::
          List.replicate (0 + 1) (BusEvent.request 0x27 3)) ++
        (BusEvent.frame 0x27
            [0x5C, (0x12 * 256 + 0xA7) >>> 8, ((0x12 * 256 + 0xA7) &&& 0x80) ||| 0x20] ::
          List.replicate (0 + 1) (BusEvent.request 0x27 1)) ∧
    ((0x12 * 256 + 0xA7) >>> 8) * 256 + (((0x12 * 256 + 0xA7) &&& 0x80) ||| 0x20) =
      ((0x12 * 256 + 0xA7) &&& 0xFF80) ||| 0x20 ∧
    ∀ i, (((0x12 * 256 + 0xA7) &&& 0xFF80) ||| 0x20).testBit i =
      if i < 7 then Nat.testBit 0x20 i else (0x12 * 256 + 0xA7).testBit i :=
  changeAddress_frames 0 0 2 ⟨true, true, false, 0x27⟩
    ⟨0, [], [], fun i => if i = 0 then [0x81, 0x12, 0xA7] else [0x81], 0, []⟩
    0x20 0x81 0x12 0xA7 0x81 [] rfl (by decide)
    (fun i hi => absurd hi (Nat.not_lt_zero i))
    (by simp) (by decide) (by decide) (by decide) (by decide) (by decide)
    (fun i hi => absurd hi (Nat.not_lt_zero i))
    (by simp) (by decide) (by decide) (by decide) (by decide)

/-- C8: for a session in Normal state and a device that answers the status byte
`s`, `begin()` writes exactly one frame `{0xA0, 0, 0}` to the session's
address, requests exactly 1 byte, returns true exactly when bit 7 of `s` is
set, and leaves `inCommandMode_` equal to the value it returns. -/
theorem begin_enters_command_mode (self : HIH8000Command_I2C) (wire : TwoWire)
    (s : Nat) (tail : List Nat)
    (hmode : self.inCommandMode_ = false)
    (hdev : wire.device wire.requests = s :: tail) (hs : s < 256) :
    (self.begin wire).2.2.traffic =
      wire.traffic ++ [BusEvent.frame self.address_ [0xA0, 0x00, 0x00],
        BusEvent.request self.address_ 1] ∧
    (self.begin wire).1 = s.testBit 7 ∧
    (self.begin wire).2.1.inCommandMode_ = (self.begin wire).1 ∧
    (self.begin wire).2.1.address_ = self.address_ ∧
    (self.begin wire).2.1.addressSet_ = self.addressSet_ := by
  by_cases hbit : s.testBit 7 = true
  · have h1 : s &&& 0x80 ≠ 0 := (and_0x80_ne_zero_iff s).2 hbit
    simp [begin, TwoWire.beginTransmission, TwoWire.write, TwoWire.endTransmission,
      TwoWire.requestFrom, TwoWire.read, hdev, RESPONSEBYTECOUNT_WRITE_,
      Nat.mod_eq_of_lt hs, toUInt8_natCast s hs, h1, hbit, COMMAND_START_, DATA_DUMMY_]
  · have h1 : s &&& 0x80 = 0 := by
      by_contra h
      exact hbit ((and_0x80_ne_zero_iff s).1 h)
    simp only [Bool.not_eq_true] at hbit
    simp [begin, TwoWire.beginTransmission, TwoWire.write, TwoWire.endTransmission,
      TwoWire.requestFrom, TwoWire.read, hdev, RESPONSEBYTECOUNT_WRITE_,
      Nat.mod_eq_of_lt hs, toUInt8_natCast s hs, h1, hbit, COMMAND_START_, DATA_DUMMY_,
      hmode]

theorem begin_enters_command_mode_witness :
    (begin ⟨true, false, false, 0x27⟩ ⟨0, [], [], fun _ => [0x81], 0, []⟩).2.2.traffic =
      [] ++ [BusEvent.frame 0x27 [0xA0, 0x00, 0x00], BusEvent.request 0x27 1] ∧
    (begin ⟨true, false, false, 0x27⟩ ⟨0, [], [], fun _ => [0x81], 0, []⟩).1 =
      Nat.testBit 0x81 7 ∧
    (begin ⟨true, false, false, 0x27⟩
        ⟨0, [], [], fun _ => [0x81], 0, []⟩).2.1.inCommandMode_ =
      (begin ⟨true, false, false, 0x27⟩ ⟨0, [], [], fun _ => [0x81], 0, []⟩).1 ∧
    (begin ⟨true, false, false, 0x27⟩ ⟨0, [], [], fun _ => [0x81], 0, []⟩).2.1.address_
      = 0x27 ∧
    (begin ⟨true, false, false, 0x27⟩ ⟨0, [], [], fun _ => [0x81], 0, []⟩).2.1.addressSet_
      = true :=
  begin_enters_command_mode ⟨true, false, false, 0x27⟩
    ⟨0, [], [], fun _ => [0x81], 0, []⟩ 0x81 [] rfl rfl (by decide)

/-- C9: for every session state, and whatever the device would answer, `end()`
writes exactly one frame `{0x80, 0, 0}` to the session's address, requests no
read, and leaves `inCommandMode_` false; so `begin()` followed at once by
`end()` leaves the session in Normal state, whatever status byte `begin()`
received. -/
theorem end_leaves_command_mode (self : HIH8000Command_I2C) (wire : TwoWire) :
    (self.end wire).2.traffic =
      wire.traffic ++ [BusEvent.frame self.address_ [0x80, 0x00, 0x00]] ∧
    (self.end wire).2.requests = wire.requests ∧
    (self.end wire).1.inCommandMode_ = false ∧
    ((self.begin wire).2.1.end (self.begin wire).2.2).1.inCommandMode_ = false := by
  simp [HIH8000Command_I2C.end, TwoWire.beginTransmission, TwoWire.write,
    TwoWire.endTransmission, COMMAND_EXIT_, DATA_DUMMY_]

/-- C10: for every session state and every value `a > 0x7F`, `setAddress a`
leaves the object as it was: the stored address, `addressSet_` and every
other field are unchanged. -/
theorem setAddress_rejects_out_of_range (self : HIH8000Command_I2C) (a : Nat)
    (ha : 0x7F < a) : self.setAddress a = self := by
  unfold setAddress
  have h : ¬ a ≤ 0x7F := by omega
  simp [h]

theorem setAddress_rejects_out_of_range_witness :
    setAddress ⟨true, false, false, 0x27⟩ 0x80 = ⟨true, false, false, 0x27⟩ :=
  setAddress_rejects_out_of_range ⟨true, false, false, 0x27⟩ 0x80 (by decide)

/-- C11: with `inCommandMode_` true, `setAddress a` returns the object as it
was, for every argument `a`, in range or not: `address_`, `addressSet_`,
`inCommandMode_` and `sensorBusy_` keep their values. The function has no
access to the bus, so there is no bus traffic. -/
theorem setAddress_in_command_mode (self : HIH8000Command_I2C) (a : Nat)
    (hmode : self.inCommandMode_ = true) : self.setAddress a = self := by
  simp [setAddress, hmode]

theorem setAddress_in_command_mode_witness :
    setAddress ⟨true, true, false, 0x27⟩ 0x20 = ⟨true, true, false, 0x27⟩ ∧
    setAddress ⟨true, true, false, 0x27⟩ 0x80 = ⟨true, true, false, 0x27⟩ :=
  ⟨setAddress_in_command_mode ⟨true, true, false, 0x27⟩ 0x20 rfl,
   setAddress_in_command_mode ⟨true, true, false, 0x27⟩ 0x80 rfl⟩

/-- C12: for every session state, in command mode or not, and every new
address `n > 0x7F`, `changeAddress n` returns false at once, with the object
and the bus as they were: neither the customer-config read frame nor any
write frame is sent, and no read is requested. -/
theorem changeAddress_rejects_out_of_range (bound : Nat) (self : HIH8000Command_I2C)
    (wire : TwoWire) (n : Nat) (hn : 0x7F < n) :
    changeAddress bound self wire n = Outcome.returned (some false) self wire := by
  unfold changeAddress
  rw [if_neg (by omega)]

theorem changeAddress_rejects_out_of_range_witness :
    changeAddress 4 ⟨true, true, false, 0x27⟩ ⟨0, [], [], fun _ => [0x81, 0, 0], 0, []⟩
      0x80 =
    Outcome.returned (some false) ⟨true, true, false, 0x27⟩
      ⟨0, [], [], fun _ => [0x81, 0, 0], 0, []⟩ :=
  changeAddress_rejects_out_of_range 4 ⟨true, true, false, 0x27⟩
    ⟨0, [], [], fun _ => [0x81, 0, 0], 0, []⟩ 0x80 (by decide)

/-- C17: the destructor sends the exit frame `{0x80, 0, 0}` exactly once when
the session is in command mode and puts nothing on the bus when it is in
Normal state; it requests no read, and `inCommandMode_` is false afterwards
in both cases. -/
theorem destroy_exits_command_mode (self : HIH8000Command_I2C) (wire : TwoWire) :
    (self.destroy wire).2.traffic =
      (if self.inCommandMode_ = true then
        wire.traffic ++ [BusEvent.frame self.address_ [0x80, 0x00, 0x00]]
      else wire.traffic) ∧
    (self.destroy wire).2.requests = wire.requests ∧
    (self.destroy wire).1.inCommandMode_ = false := by
  unfold destroy
  by_cases hmode : self.inCommandMode_ = true
  · simp [hmode, HIH8000Command_I2C.end, TwoWire.beginTransmission, TwoWire.write,
      TwoWire.endTransmission, COMMAND_EXIT_, DATA_DUMMY_]
  · simp only [Bool.not_eq_true] at hmode
    simp [hmode]

theorem truncate_of_nonneg (h : ℚ) (h0 : 0 ≤ h) : truncate h = ⌊h⌋ := by
  simp [truncate, h0]

/-- The conversion of a humidity whose integer part `t` fits in 16 bits. -/
theorem humidityToBits_of_floor (h : ℚ) (h0 : 0 ≤ h) (hfit : ⌊h⌋ < 65536) :
    humidityToBits h = some ((⌊h⌋.toNat / 100 * 16382) % 65536) := by
  have hnn : 0 ≤ ⌊h⌋ := Int.floor_nonneg.2 h0
  simp [humidityToBits, floatToUInt16, truncate_of_nonneg h h0, hnn, hfit]

/-- C18: for every humidity `h >= 0` whose integer part `t = floor h` fits in 16
bits, `humidityToBits h` is `((t div 100) * 16382) mod 2^16`, the division
being the truncating integer division, applied before the scaling; it is 0
for `0 <= h < 100` and 16382 for `100 <= h < 200`. -/
theorem humidityToBits_truncates (h : ℚ) (h0 : 0 ≤ h) (hfit : ⌊h⌋ < 65536) :
    humidityToBits h = some ((⌊h⌋.toNat / 100 * 16382) % 65536) ∧
    (h < 100 → humidityToBits h = some 0) ∧
    (100 ≤ h → h < 200 → humidityToBits h = some 16382) := by
  have hnn : 0 ≤ ⌊h⌋ := Int.floor_nonneg.2 h0
  have e := humidityToBits_of_floor h h0 hfit
  refine ⟨e, ?_, ?_⟩
  · intro hlt
    have h1 : ⌊h⌋ < 100 := Int.floor_lt.2 (by exact_mod_cast hlt)
    have h2 : ⌊h⌋.toNat / 100 = 0 := by omega
    rw [e, h2]
  · intro hge hlt
    have h1 : ⌊h⌋ < 200 := Int.floor_lt.2 (by exact_mod_cast hlt)
    have h3 : (100 : ℤ) ≤ ⌊h⌋ := Int.le_floor.2 (by exact_mod_cast hge)
    have h2 : ⌊h⌋.toNat / 100 = 1 := by omega
    rw [e, h2]

theorem humidityToBits_truncates_witness :
    humidityToBits (301 / 2) = some ((⌊(301 / 2 : ℚ)⌋.toNat / 100 * 16382) % 65536) ∧
    ((301 / 2 : ℚ) < 100 → humidityToBits (301 / 2) = some 0) ∧
    ((100 : ℚ) ≤ 301 / 2 → (301 / 2 : ℚ) < 200 → humidityToBits (301 / 2) = some 16382) :=
  humidityToBits_truncates (301 / 2) (by norm_num) (Int.floor_lt.2 (by norm_num))

theorem humidityToBits_lt (h : ℚ) (w : Nat) (hconv : humidityToBits h = some w) :
    w < 65536 := by
  unfold humidityToBits at hconv
  cases hf : floatToUInt16 h with
  | none => simp [hf] at hconv
  | some t =>
    simp only [hf, Option.map_some', Option.some.injEq] at hconv
    omega

/-- The common body of the four threshold change operations, in command
mode, on `k` busy status bytes followed by a not-busy status `s`. -/
theorem changeAlarm_run (k bound : Nat) (self : HIH8000Command_I2C) (wire : TwoWire)
    (command : Nat) (h : ℚ) (w s : Nat) (tail : List Nat)
    (hmode : self.inCommandMode_ = true) (hc : command < 256)
    (hconv : humidityToBits h = some w)
    (hall : ∀ i, i < k → ∃ b rest, wire.device (wire.requests + i) = b :: rest ∧
      b < 256 ∧ b % 4 = 0)
    (hfin : wire.device (wire.requests + k) = s :: tail)
    (hs : s < 256) (h4 : s % 4 ≠ 0) (hk : k < bound) :
    ∃ o, changeAlarm bound self wire command h = some o ∧
      o.value? = some (some (s.testBit 0)) ∧
      o.wire.traffic = wire.traffic ++
        BusEvent.frame self.address_ [command, w >>> 8, w &&& 0xFF] ::
          List.replicate (k + 1) (BusEvent.request self.address_ 1) := by
  have hw := humidityToBits_lt h w hconv
  obtain ⟨w', e, _, _, t⟩ := writeRegister_run k bound self wire command w w true s tail
    hmode hw hw hall hfin hs h4 hk
  refine ⟨writeRegister bound self wire command w w true,
    by simp [changeAlarm, hconv], ?_, ?_⟩
  · rw [e]
    rfl
  · rw [e]
    simp only [Outcome.wire, t, if_true, Nat.or_self, Nat.mod_eq_of_lt hc]

/-- C13 (as stated, refuted): in command mode, `changeAlarmHighOn(150)` sends
the frame `{0x58, 0x3F, 0xFE}` and reports success when the device
acknowledges, and `changeAlarmLowOff(-0.5)` sends `{0x5B, 0x00, 0x00}` and
reports success: humidity values outside 0..100 are not rejected. -/
theorem change_threshold_accepts_out_of_range :
    (Threshold.alarmHighOn.change 1 ⟨true, true, false, 0x27⟩
        ⟨0, [], [], fun _ => [0x81], 0, []⟩ 150).map
        (fun o => (o.value?, o.wire.traffic)) =
      some (some (some true),
        [BusEvent.frame 0x27 [0x58, 0x3F, 0xFE], BusEvent.request 0x27 1]) ∧
    (Threshold.alarmLowOff.change 1 ⟨true, true, false, 0x27⟩
        ⟨0, [], [], fun _ => [0x81], 0, []⟩ (-1 / 2)).map
        (fun o => (o.value?, o.wire.traffic)) =
      some (some (some true),
        [BusEvent.frame 0x27 [0x5B, 0x00, 0x00], BusEvent.request 0x27 1]) := by
  refine ⟨by decide, ?_⟩
  have hc : ⌈(-(1 / 2) : ℚ)⌉ = 0 := by
    rw [Int.ceil_eq_iff]
    norm_num
  have e : humidityToBits (-1 / 2) = some 0 := by
    norm_num [humidityToBits, floatToUInt16, truncate, hc]
  unfold Threshold.change changeAlarmLowOff changeAlarm
  simp only [e]
  decide

/-- C13 (amended): the four threshold change operations make no range check.
In command mode, for every humidity `h`, inside or outside 0..100, whose
conversion `humidityToBits h` is defined, with `w` its result, each of them
sends exactly one frame `{command, w >> 8, w & 0xFF}` (command 0x58, 0x59,
0x5A, 0x5B) and returns bit 0 of the final status byte `s` of the poll. -/
theorem change_threshold_sends_frame (t : Threshold) (k bound : Nat)
    (self : HIH8000Command_I2C) (wire : TwoWire) (h : ℚ) (w s : Nat) (tail : List Nat)
    (hmode : self.inCommandMode_ = true)
    (hconv : humidityToBits h = some w)
    (hall : ∀ i, i < k → ∃ b rest, wire.device (wire.requests + i) = b :: rest ∧
      b < 256 ∧ b % 4 = 0)
    (hfin : wire.device (wire.requests + k) = s :: tail)
    (hs : s < 256) (h4 : s % 4 ≠ 0) (hk : k < bound) :
    ∃ o, t.change bound self wire h = some o ∧
      o.value? = some (some (s.testBit 0)) ∧
      o.wire.traffic = wire.traffic ++
        BusEvent.frame self.address_ [t.writeCommand, w >>> 8, w &&& 0xFF] ::
          List.replicate (k + 1) (BusEvent.request self.address_ 1) := by
  cases t
  · exact changeAlarm_run k bound self wire COMMAND_WRITE_ALARM_HIGH_ON_ h w s tail
      hmode (by decide) hconv hall hfin hs h4 hk
  · exact changeAlarm_run k bound self wire COMMAND_WRITE_ALARM_HIGH_OFF_ h w s tail
      hmode (by decide) hconv hall hfin hs h4 hk
  · exact changeAlarm_run k bound self wire COMMAND_WRITE_ALARM_LOW_ON_ h w s tail
      hmode (by decide) hconv hall hfin hs h4 hk
  · exact changeAlarm_run k bound self wire COMMAND_WRITE_ALARM_LOW_OFF_ h w s tail
      hmode (by decide) hconv hall hfin hs h4 hk

theorem change_threshold_sends_frame_witness :
    ∃ o, Threshold.alarmHighOn.change 1 ⟨true, true, false, 0x27⟩
        ⟨0, [], [], fun _ => [0x81], 0, []⟩ 150 = some o ∧
      o.value? = some (some (Nat.testBit 0x81 0)) ∧
      o.wire.traffic = [] ++
        BusEvent.frame 0x27 [Threshold.alarmHighOn.writeCommand, 16382 >>> 8, 16382 &&& 0xFF] ::
          List.replicate (0 + 1) (BusEvent.request 0x27 1) :=
  change_threshold_sends_frame Threshold.alarmHighOn 0 1 ⟨true, true, false, 0x27⟩
    ⟨0, [], [], fun _ => [0x81], 0, []⟩ 150 16382 0x81 [] rfl (by decide)
    (fun i hi => absurd hi (Nat.not_lt_zero i)) (by simp) (by decide) (by decide)
    (by decide)

/-- The accessor `readAddress` in command mode, on `k` busy answers followed
by a not-busy answer `{s, hi, lo}`. -/
theorem readAddress_run (k bound : Nat) (self : HIH8000Command_I2C) (wire : TwoWire)
    (s hi lo : Nat)
    (hmode : self.inCommandMode_ = true)
    (hall : ∀ i, i < k → ∃ b rest, wire.device (wire.requests + i) = b :: rest ∧
      b < 256 ∧ b % 4 = 0)
    (hfin : wire.device (wire.requests + k) = [s, hi, lo])
    (hs : s < 256) (hhi : hi < 256) (hlo : lo < 256) (h4 : s % 4 ≠ 0)
    (hk : k < bound) :
    (readAddress bound self wire).value? =
      some (some (if s.testBit 0 = true then hi * 256 + lo else 100)) := by
  obtain ⟨w, e, _, _, _⟩ := readRegister_run k bound self wire COMMAND_READ_CUSTCONFIG_
    s hi lo hmode hall hfin hs hhi hlo h4 hk
  unfold readAddress readCustConfig
  rw [e]
  cases hbit : s.testBit 0 <;> simp [Outcome.value?]

/-- C14 (as stated, refuted): when the device answers `{0x81, 0x00, 0x64}` the
customer-config read succeeds with the word 100, and `readAddress()` returns
100, the value it also returns on failure. -/
theorem readAddress_sentinel_is_a_reading :
    (readCustConfig 1 ⟨true, true, false, 0x27⟩
        ⟨0, [], [], fun _ => [0x81, 0x00, 0x64], 0, []⟩).value? =
      some (some true, some 100) ∧
    (readAddress 1 ⟨true, true, false, 0x27⟩
        ⟨0, [], [], fun _ => [0x81, 0x00, 0x64], 0, []⟩).value? = some (some 100) := by
  decide

/-- C14 (amended): in command mode, when the customer-config read succeeds with
the word `c = hi * 256 + lo`, `readAddress()` returns `c`, and when it fails
`readAddress()` returns 100. The word 100 can itself be read, so a result of
100 does not tell a failure from a success; a result other than 100 means
that the read succeeded. -/
theorem readAddress_value (k bound : Nat) (self : HIH8000Command_I2C) (wire : TwoWire)
    (s hi lo : Nat)
    (hmode : self.inCommandMode_ = true)
    (hall : ∀ i, i < k → ∃ b rest, wire.device (wire.requests + i) = b :: rest ∧
      b < 256 ∧ b % 4 = 0)
    (hfin : wire.device (wire.requests + k) = [s, hi, lo])
    (hs : s < 256) (hhi : hi < 256) (hlo : lo < 256) (h4 : s % 4 ≠ 0)
    (hk : k < bound) :
    (s.testBit 0 = true →
      (readAddress bound self wire).value? = some (some (hi * 256 + lo))) ∧
    (s.testBit 0 = false → (readAddress bound self wire).value? = some (some 100)) ∧
    ((readAddress bound self wire).value? ≠ some (some 100) → s.testBit 0 = true) := by
  have e := readAddress_run k bound self wire s hi lo hmode hall hfin hs hhi hlo h4 hk
  rw [e]
  cases hbit : s.testBit 0 <;> simp

theorem readAddress_value_witness :
    (Nat.testBit 0x81 0 = true →
      (readAddress 1 ⟨true, true, false, 0x27⟩
        ⟨0, [], [], fun _ => [0x81, 0x12, 0xA7], 0, []⟩).value? =
        some (some (0x12 * 256 + 0xA7))) ∧
    (Nat.testBit 0x81 0 = false →
      (readAddress 1 ⟨true, true, false, 0x27⟩
        ⟨0, [], [], fun _ => [0x81, 0x12, 0xA7], 0, []⟩).value? = some (some 100)) ∧
    ((readAddress 1 ⟨true, true, false, 0x27⟩
        ⟨0, [], [], fun _ => [0x81, 0x12, 0xA7], 0, []⟩).value? ≠ some (some 100) →
      Nat.testBit 0x81 0 = true) :=
  readAddress_value 0 1 ⟨true, true, false, 0x27⟩
    ⟨0, [], [], fun _ => [0x81, 0x12, 0xA7], 0, []⟩ 0x81 0x12 0xA7 rfl
    (fun i hi => absurd hi (Nat.not_lt_zero i)) (by simp) (by decide) (by decide)
    (by decide) (by decide) (by decide)

/-- The common body of the four threshold accessors, in command mode, on `k`
busy answers followed by a not-busy answer `{s, hi, lo}`. -/
theorem readAlarm_run (k bound : Nat) (self : HIH8000Command_I2C) (wire : TwoWire)
    (command s hi lo : Nat)
    (hmode : self.inCommandMode_ = true) (hc : command < 256)
    (hall : ∀ i, i < k → ∃ b rest, wire.device (wire.requests + i) = b :: rest ∧
      b < 256 ∧ b % 4 = 0)
    (hfin : wire.device (wire.requests + k) = [s, hi, lo])
    (hs : s < 256) (hhi : hi < 256) (hlo : lo < 256) (h4 : s % 4 ≠ 0)
    (hk : k < bound) :
    (readAlarm bound self wire command).value? =
      some (some (if s.testBit 0 = true then bitsToHumidity (hi * 256 + lo) else -1)) ∧
    (readAlarm bound self wire command).wire.traffic =
      wire.traffic ++ BusEvent.frame self.address_ [command, 0, 0] ::
        List.replicate (k + 1) (BusEvent.request self.address_ 3) := by
  obtain ⟨w, e, _, _, t⟩ := readRegister_run k bound self wire command
    s hi lo hmode hall hfin hs hhi hlo h4 hk
  rw [Nat.mod_eq_of_lt hc] at t
  unfold readAlarm
  rw [e]
  cases hbit : s.testBit 0 <;> simp [Outcome.value?, Outcome.wire, t]

theorem bitsToHumidity_nonneg (r : Nat) : 0 ≤ bitsToHumidity r := by
  unfold bitsToHumidity
  positivity

/-- C15: in command mode, for each of the four threshold accessors (commands
0x18, 0x19, 0x1A, 0x1B): when the register read succeeds with the raw word
`r = hi * 256 + lo` the accessor returns `r / 16382 * 100`, when it fails the
accessor returns `-1`; `r / 16382 * 100` is never negative, so the result is
`-1` exactly when the read failed. -/
theorem read_threshold_value (t : Threshold) (k bound : Nat)
    (self : HIH8000Command_I2C) (wire : TwoWire) (s hi lo : Nat)
    (hmode : self.inCommandMode_ = true)
    (hall : ∀ i, i < k → ∃ b rest, wire.device (wire.requests + i) = b :: rest ∧
      b < 256 ∧ b % 4 = 0)
    (hfin : wire.device (wire.requests + k) = [s, hi, lo])
    (hs : s < 256) (hhi : hi < 256) (hlo : lo < 256) (h4 : s % 4 ≠ 0)
    (hk : k < bound) :
    (s.testBit 0 = true →
      (t.read bound self wire).value? =
        some (some (((hi * 256 + lo : Nat) : ℚ) / 16382 * 100))) ∧
    (s.testBit 0 = false → (t.read bound self wire).value? = some (some (-1))) ∧
    (∀ r : Nat, bitsToHumidity r = (r : ℚ) / 16382 * 100 ∧ 0 ≤ bitsToHumidity r) ∧
    ((t.read bound self wire).value? = some (some (-1)) ↔ s.testBit 0 = false) ∧
    (t.read bound self wire).wire.traffic =
      wire.traffic ++ BusEvent.frame self.address_ [t.readCommand, 0, 0] ::
        List.replicate (k + 1) (BusEvent.request self.address_ 3) := by
  have hrun : (t.read bound self wire).value? =
        some (some (if s.testBit 0 = true then bitsToHumidity (hi * 256 + lo) else -1)) ∧
      (t.read bound self wire).wire.traffic =
        wire.traffic ++ BusEvent.frame self.address_ [t.readCommand, 0, 0] ::
          List.replicate (k + 1) (BusEvent.request self.address_ 3) := by
    cases t
    · exact readAlarm_run k bound self wire COMMAND_READ_ALARM_HIGH_ON_ s hi lo hmode
        (by decide) hall hfin hs hhi hlo h4 hk
    · exact readAlarm_run k bound self wire COMMAND_READ_ALARM_HIGH_OFF_ s hi lo hmode
        (by decide) hall hfin hs hhi hlo h4 hk
    · exact readAlarm_run k bound self wire COMMAND_READ_ALARM_LOW_ON_ s hi lo hmode
        (by decide) hall hfin hs hhi hlo h4 hk
    · exact readAlarm_run k bound self wire COMMAND_READ_ALARM_LOW_OFF_ s hi lo hmode
        (by decide) hall hfin hs hhi hlo h4 hk
  obtain ⟨hv, ht⟩ := hrun
  have hnn := bitsToHumidity_nonneg (hi * 256 + lo)
  refine ⟨?_, ?_, fun r => ⟨rfl, bitsToHumidity_nonneg r⟩, ?_, ht⟩
  · intro hbit
    rw [hv, if_pos hbit]
    rfl
  · intro hbit
    rw [hv, if_neg (by simp [hbit])]
  · rw [hv]
    cases hbit : s.testBit 0
    · simp
    · simp only [if_true, Option.some.injEq]
      constructor
      · intro h
        rw [h] at hnn
        norm_num at hnn
      · intro h
        cases h

theorem read_threshold_value_witness :
    (Nat.testBit 0x81 0 = true →
      (Threshold.alarmLowOn.read 1 ⟨true, true, false, 0x27⟩
        ⟨0, [], [], fun _ => [0x81, 0x1F, 0xFF], 0, []⟩).value? =
        some (some (((0x1F * 256 + 0xFF : Nat) : ℚ) / 16382 * 100))) ∧
    (Nat.testBit 0x81 0 = false →
      (Threshold.alarmLowOn.read 1 ⟨true, true, false, 0x27⟩
        ⟨0, [], [], fun _ => [0x81, 0x1F, 0xFF], 0, []⟩).value? = some (some (-1))) ∧
    (∀ r : Nat, bitsToHumidity r = (r : ℚ) / 16382 * 100 ∧ 0 ≤ bitsToHumidity r) ∧
    ((Threshold.alarmLowOn.read 1 ⟨true, true, false, 0x27⟩
        ⟨0, [], [], fun _ => [0x81, 0x1F, 0xFF], 0, []⟩).value? = some (some (-1)) ↔
      Nat.testBit 0x81 0 = false) ∧
    (Threshold.alarmLowOn.read 1 ⟨true, true, false, 0x27⟩
        ⟨0, [], [], fun _ => [0x81, 0x1F, 0xFF], 0, []⟩).wire.traffic =
      [] ++ BusEvent.frame 0x27 [Threshold.alarmLowOn.readCommand, 0, 0] ::
        List.replicate (0 + 1) (BusEvent.request 0x27 3) :=
  read_threshold_value Threshold.alarmLowOn 0 1 ⟨true, true, false, 0x27⟩
    ⟨0, [], [], fun _ => [0x81, 0x1F, 0xFF], 0, []⟩ 0x81 0x1F 0xFF rfl
    (fun i hi => absurd hi (Nat.not_lt_zero i)) (by simp) (by decide) (by decide)
    (by decide) (by decide) (by decide)

/-- Setting bit `j` of a word. -/
theorem setBit_testBit (c j i : Nat) :
    (c ||| 2 ^ j).testBit i = if i = j then true else c.testBit i := by
  rw [Nat.testBit_or, Nat.testBit_two_pow]
  by_cases h : i = j
  · subst h; simp
  · have h' : ¬ j = i := fun e => h e.symm
    simp [h, h']

/-- Clearing bit `j` of a 16-bit word with the 16-bit complement of `2 ^ j`. -/
theorem clearBit_testBit (c j i : Nat) (hc : c < 65536) (hj : j < 16) :
    (c &&& (0xFFFF - 2 ^ j)).testBit i = if i = j then false else c.testBit i := by
  have hpow : 2 ^ j < 2 ^ 16 := Nat.pow_lt_pow_right (by norm_num) hj
  have hmask : 0xFFFF - 2 ^ j = 2 ^ 16 - (2 ^ j + 1) := by omega
  rw [Nat.testBit_and, hmask, Nat.testBit_two_pow_sub_succ hpow, Nat.testBit_two_pow]
  by_cases h : i = j
  · subst h; simp
  · have h' : ¬ j = i := fun e => h e.symm
    by_cases h16 : i < 16
    · simp [h, h', h16]
    · have hc' : c.testBit i = false :=
        testBit_of_lt_of_le (by omega : c < 2 ^ 16) (by omega)
      simp [h, hc']

/-- The common body of the five bitfield change operations, in command mode:
the read returns the word `hi * 256 + lo` with a positive acknowledge after
`k1` busy answers, the write ends with the status `s2` after `k2` busy status
bytes. -/
theorem changeCustConfig_run (k1 k2 bound : Nat) (self : HIH8000Command_I2C)
    (wire : TwoWire) (flag : Bool) (setBits clearMask s1 hi lo s2 : Nat)
    (tail : List Nat)
    (hmode : self.inCommandMode_ = true)
    (hset : setBits < 65536) (hclear : clearMask < 65536)
    (hall1 : ∀ i, i < k1 → ∃ b rest, wire.device (wire.requests + i) = b :: rest ∧
      b < 256 ∧ b % 4 = 0)
    (hfin1 : wire.device (wire.requests + k1) = [s1, hi, lo])
    (hs1 : s1 < 256) (hhi : hi < 256) (hlo : lo < 256) (h41 : s1 % 4 ≠ 0)
    (hack : s1.testBit 0 = true)
    (hall2 : ∀ i, i < k2 → ∃ b rest,
      wire.device (wire.requests + (k1 + 1) + i) = b :: rest ∧ b < 256 ∧ b % 4 = 0)
    (hfin2 : wire.device (wire.requests + (k1 + 1) + k2) = s2 :: tail)
    (hs2 : s2 < 256) (h42 : s2 % 4 ≠ 0)
    (hk1 : k1 < bound) (hk2 : k2 < bound) :
    (changeCustConfig bound self wire flag setBits clearMask).value? =
      some (some (s2.testBit 0)) ∧
    (changeCustConfig bound self wire flag setBits clearMask).wire.traffic =
      wire.traffic ++
        (BusEvent.frame self.address_ [0x1C, 0x00, 0x00] ::
          List.replicate (k1 + 1) (BusEvent.request self.address_ 3)) ++
        (BusEvent.frame self.address_
            [0x5C,
             (if flag = true then (hi * 256 + lo) ||| setBits
               else (hi * 256 + lo) &&& clearMask) >>> 8,
             (if flag = true then (hi * 256 + lo) ||| setBits
               else (hi * 256 + lo) &&& clearMask) &&& 0xFF] ::
          List.replicate (k2 + 1) (BusEvent.request self.address_ 1)) := by
  have hc : hi * 256 + lo < 65536 := by omega
  obtain ⟨w1, e1, d1, r1, t1⟩ := readRegister_run k1 bound self wire
    COMMAND_READ_CUSTCONFIG_ s1 hi lo hmode hall1 hfin1 hs1 hhi hlo h41 hk1
  cases flag
  · obtain ⟨w2, e2, _, _, t2⟩ := writeRegister_run k2 bound
      { self with sensorBusy_ := false } w1 COMMAND_WRITE_CUSTCONFIG_
      (hi * 256 + lo) clearMask false s2 tail hmode hc hclear
      (by rw [d1, r1]; exact hall2) (by rw [d1, r1]; exact hfin2) hs2 h42 hk2
    have hrun : changeCustConfig bound self wire false setBits clearMask =
        Outcome.returned (some (s2.testBit 0))
          { ({ self with sensorBusy_ := false } : HIH8000Command_I2C) with
            sensorBusy_ := false } w2 := by
      unfold changeCustConfig readCustConfig
      rw [e1, hack]
      dsimp only
      rw [if_neg (by simp), e2]
    rw [hrun]
    refine ⟨rfl, ?_⟩
    simp only [Outcome.wire]
    rw [t2, t1]
    simp only [Bool.false_eq_true, if_false, COMMAND_READ_CUSTCONFIG_,
      COMMAND_WRITE_CUSTCONFIG_, List.append_assoc]
  · obtain ⟨w2, e2, _, _, t2⟩ := writeRegister_run k2 bound
      { self with sensorBusy_ := false } w1 COMMAND_WRITE_CUSTCONFIG_
      (hi * 256 + lo) setBits true s2 tail hmode hc hset
      (by rw [d1, r1]; exact hall2) (by rw [d1, r1]; exact hfin2) hs2 h42 hk2
    have hrun : changeCustConfig bound self wire true setBits clearMask =
        Outcome.returned (some (s2.testBit 0))
          { ({ self with sensorBusy_ := false } : HIH8000Command_I2C) with
            sensorBusy_ := false } w2 := by
      unfold changeCustConfig readCustConfig
      rw [e1, hack]
      dsimp only
      rw [if_pos rfl, e2]
    rw [hrun]
    refine ⟨rfl, ?_⟩
    simp only [Outcome.wire]
    rw [t2, t1]
    simp only [if_true, COMMAND_READ_CUSTCONFIG_,
      COMMAND_WRITE_CUSTCONFIG_, List.append_assoc]

/-- Every bitfield operation is `changeCustConfig` with its set-bit and the
16-bit complement of its set-bit, and its set-bit is bit `bitIndex`. -/
theorem BitfieldOp_run_eq (op : BitfieldOp) (bound : Nat) (self : HIH8000Command_I2C)
    (wire : TwoWire) (flag : Bool) :
    op.run bound self wire flag =
      changeCustConfig bound self wire flag op.setBit (0xFFFF - op.setBit) ∧
    op.setBit = 2 ^ op.bitIndex ∧ op.bitIndex < 16 := by
  cases op <;> exact ⟨rfl, by decide, by decide⟩

/-- C16: in command mode, for each of the five bitfield change operations with
its bit `m` (0x0040, 0x0080, 0x0100, 0x0200, 0x1000), every argument `flag`
and every customer-config word `c = hi * 256 + lo` read with a positive
acknowledge, the operation writes with command 0x5C the word `w = c | m` when
`flag` is true and `w = c & ~m` (16-bit complement) when it is false: bit `m`
of `w` is `flag`, every other bit of `w` is that of `c`. It returns bit 0 of
the final status byte of the write. -/
theorem change_bit_writes_word (op : BitfieldOp) (k1 k2 bound : Nat)
    (self : HIH8000Command_I2C) (wire : TwoWire) (flag : Bool)
    (s1 hi lo s2 : Nat) (tail : List Nat)
    (hmode : self.inCommandMode_ = true)
    (hall1 : ∀ i, i < k1 → ∃ b rest, wire.device (wire.requests + i) = b :: rest ∧
      b < 256 ∧ b % 4 = 0)
    (hfin1 : wire.device (wire.requests + k1) = [s1, hi, lo])
    (hs1 : s1 < 256) (hhi : hi < 256) (hlo : lo < 256) (h41 : s1 % 4 ≠ 0)
    (hack : s1.testBit 0 = true)
    (hall2 : ∀ i, i < k2 → ∃ b rest,
      wire.device (wire.requests + (k1 + 1) + i) = b :: rest ∧ b < 256 ∧ b % 4 = 0)
    (hfin2 : wire.device (wire.requests + (k1 + 1) + k2) = s2 :: tail)
    (hs2 : s2 < 256) (h42 : s2 % 4 ≠ 0)
    (hk1 : k1 < bound) (hk2 : k2 < bound) :
    (op.run bound self wire flag).value? = some (some (s2.testBit 0)) ∧
    (op.run bound self wire flag).wire.traffic =
      wire.traffic ++
        (BusEvent.frame self.address_ [0x1C, 0x00, 0x00] ::
          List.replicate (k1 + 1) (BusEvent.request self.address_ 3)) ++
        (BusEvent.frame self.address_
            [0x5C,
             (if flag = true then (hi * 256 + lo) ||| op.setBit
               else (hi * 256 + lo) &&& (0xFFFF - op.setBit)) >>> 8,
             (if flag = true then (hi * 256 + lo) ||| op.setBit
               else (hi * 256 + lo) &&& (0xFFFF - op.setBit)) &&& 0xFF] ::
          List.replicate (k2 + 1) (BusEvent.request self.address_ 1)) ∧
    op.setBit = 2 ^ op.bitIndex ∧
    ∀ i, (if flag = true then (hi * 256 + lo) ||| op.setBit
            else (hi * 256 + lo) &&& (0xFFFF - op.setBit)).testBit i =
      if i = op.bitIndex then flag else (hi * 256 + lo).testBit i := by
  have hc : hi * 256 + lo < 65536 := by omega
  obtain ⟨hrun, hbit, hidx⟩ := BitfieldOp_run_eq op bound self wire flag
  have hset : op.setBit < 65536 := by cases op <;> decide
  obtain ⟨hv, ht⟩ := changeCustConfig_run k1 k2 bound self wire flag op.setBit
    (0xFFFF - op.setBit) s1 hi lo s2 tail hmode hset (by omega) hall1 hfin1 hs1 hhi hlo
    h41 hack hall2 hfin2 hs2 h42 hk1 hk2
  rw [hrun]
  refine ⟨hv, ht, hbit, ?_⟩
  intro i
  rw [hbit]
  cases flag
  · simp only [Bool.false_eq_true, if_false]
    exact clearBit_testBit _ _ i hc hidx
  · simp only [if_true]
    exact setBit_testBit _ _ i

theorem change_bit_writes_word_witness :
    (BitfieldOp.alarmLowPolarity.run 2 ⟨true, true, false, 0x27⟩
        ⟨0, [], [], fun i => if i = 0 then [0x81, 0x12, 0xA7] else [0x81], 0, []⟩
        false).value? = some (some (Nat.testBit 0x81 0)) ∧
    (BitfieldOp.alarmLowPolarity.run 2 ⟨true, true, false, 0x27⟩
        ⟨0, [], [], fun i => if i = 0 then [0x81, 0x12, 0xA7] else [0x81], 0, []⟩
        false).wire.traffic =
      [] ++
        (BusEvent.frame 0x27 [0x1C, 0x00, 0x00] ::
          List.replicate (0 + 1) (BusEvent.request 0x27 3)) ++
        (BusEvent.frame 0x27
            [0x5C,
             (if false = true then (0x12 * 256 + 0xA7) ||| BitfieldOp.alarmLowPolarity.setBit
               else (0x12 * 256 + 0xA7) &&&
                 (0xFFFF - BitfieldOp.alarmLowPolarity.setBit)) >>> 8,
             (if false = true then (0x12 * 256 + 0xA7) ||| BitfieldOp.alarmLowPolarity.setBit
               else (0x12 * 256 + 0xA7) &&&
                 (0xFFFF - BitfieldOp.alarmLowPolarity.setBit)) &&& 0xFF] ::
          List.replicate (0 + 1) (BusEvent.request 0x27 1)) ∧
    BitfieldOp.alarmLowPolarity.setBit = 2 ^ BitfieldOp.alarmLowPolarity.bitIndex ∧
    ∀ i, (if false = true then (0x12 * 256 + 0xA7) ||| BitfieldOp.alarmLowPolarity.setBit
            else (0x12 * 256 + 0xA7) &&&
              (0xFFFF - BitfieldOp.alarmLowPolarity.setBit)).testBit i =
      if i = BitfieldOp.alarmLowPolarity.bitIndex then false
      else (0x12 * 256 + 0xA7).testBit i :=
  change_bit_writes_word BitfieldOp.alarmLowPolarity 0 0 2 ⟨true, true, false, 0x27⟩
    ⟨0, [], [], fun i => if i = 0 then [0x81, 0x12, 0xA7] else [0x81], 0, []⟩
    false 0x81 0x12 0xA7 0x81 [] rfl
    (fun i hi => absurd hi (Nat.not_lt_zero i))
    (by simp) (by decide) (by decide) (by decide) (by decide) (by decide)
    (fun i hi => absurd hi (Nat.not_lt_zero i))
    (by simp) (by decide) (by decide) (by decide) (by decide)

/-- `readCustConfig` in command mode, on `k` busy answers followed by a
not-busy answer whose acknowledge bit is clear. -/
theorem readCustConfig_nack (k bound : Nat) (self : HIH8000Command_I2C) (wire : TwoWire)
    (s hi lo : Nat)
    (hmode : self.inCommandMode_ = true)
    (hall : ∀ i, i < k → ∃ b rest, wire.device (wire.requests + i) = b :: rest ∧
      b < 256 ∧ b % 4 = 0)
    (hfin : wire.device (wire.requests + k) = [s, hi, lo])
    (hs : s < 256) (hhi : hi < 256) (hlo : lo < 256) (h4 : s % 4 ≠ 0)
    (hnack : s.testBit 0 = false) (hk : k < bound) :
    ∃ w, readCustConfig bound self wire =
          Outcome.returned (some false, some (hi * 256 + lo))
            { self with sensorBusy_ := false } w ∧
      w.traffic = wire.traffic ++
        BusEvent.frame self.address_ [0x1C, 0x00, 0x00] ::
          List.replicate (k + 1) (BusEvent.request self.address_ 3) := by
  obtain ⟨w, e, _, _, t⟩ := readRegister_run k bound self wire COMMAND_READ_CUSTCONFIG_
    s hi lo hmode hall hfin hs hhi hlo h4 hk
  refine ⟨w, ?_, ?_⟩
  · unfold readCustConfig
    rw [e, hnack]
  · rw [t]
    rfl

/-- C19: in command mode, when the customer-config read completes with bit 0 of
its final status byte clear, `changeAddress n` (with `n <= 0x7F`) and each of
the five bitfield change operations return false, and the only traffic is the
read frame `{0x1C, 0, 0}` and its `k + 1` read requests: no write frame (no
frame with command byte 0x5C) is sent. -/
theorem change_after_failed_read (k bound : Nat) (self : HIH8000Command_I2C)
    (wire : TwoWire) (n s hi lo : Nat)
    (hmode : self.inCommandMode_ = true) (hn : n ≤ 0x7F)
    (hall : ∀ i, i < k → ∃ b rest, wire.device (wire.requests + i) = b :: rest ∧
      b < 256 ∧ b % 4 = 0)
    (hfin : wire.device (wire.requests + k) = [s, hi, lo])
    (hs : s < 256) (hhi : hi < 256) (hlo : lo < 256) (h4 : s % 4 ≠ 0)
    (hnack : s.testBit 0 = false) (hk : k < bound) :
    ((changeAddress bound self wire n).value? = some (some false) ∧
      (changeAddress bound self wire n).wire.traffic =
        wire.traffic ++ BusEvent.frame self.address_ [0x1C, 0x00, 0x00] ::
          List.replicate (k + 1) (BusEvent.request self.address_ 3)) ∧
    (∀ (op : BitfieldOp) (flag : Bool),
      (op.run bound self wire flag).value? = some (some false) ∧
      (op.run bound self wire flag).wire.traffic =
        wire.traffic ++ BusEvent.frame self.address_ [0x1C, 0x00, 0x00] ::
          List.replicate (k + 1) (BusEvent.request self.address_ 3)) ∧
    ∀ bytes : List Nat,
      BusEvent.frame self.address_ (0x5C :: bytes) ∉
        BusEvent.frame self.address_ [0x1C, 0x00, 0x00] ::
          List.replicate (k + 1) (BusEvent.request self.address_ 3) := by
  obtain ⟨w, e, t⟩ := readCustConfig_nack k bound self wire s hi lo hmode hall hfin
    hs hhi hlo h4 hnack hk
  refine ⟨?_, ?_, ?_⟩
  · unfold changeAddress
    rw [if_pos hn, e]
    exact ⟨rfl, t⟩
  · intro op flag
    rw [(BitfieldOp_run_eq op bound self wire flag).1]
    unfold changeCustConfig
    rw [e]
    exact ⟨rfl, t⟩
  · intro bytes hmem
    rcases List.mem_cons.1 hmem with h | h
    · simp at h
    · have h2 := List.eq_of_mem_replicate h
      cases h2

theorem change_after_failed_read_witness :
    ((changeAddress 1 ⟨true, true, false, 0x27⟩
        ⟨0, [], [], fun _ => [0x82, 0x12, 0xA7], 0, []⟩ 0x20).value? = some (some false) ∧
      (changeAddress 1 ⟨true, true, false, 0x27⟩
        ⟨0, [], [], fun _ => [0x82, 0x12, 0xA7], 0, []⟩ 0x20).wire.traffic =
        [] ++ BusEvent.frame 0x27 [0x1C, 0x00, 0x00] ::
          List.replicate (0 + 1) (BusEvent.request 0x27 3)) ∧
    (∀ (op : BitfieldOp) (flag : Bool),
      (op.run 1 ⟨true, true, false, 0x27⟩
        ⟨0, [], [], fun _ => [0x82, 0x12, 0xA7], 0, []⟩ flag).value? = some (some false) ∧
      (op.run 1 ⟨true, true, false, 0x27⟩
        ⟨0, [], [], fun _ => [0x82, 0x12, 0xA7], 0, []⟩ flag).wire.traffic =
        [] ++ BusEvent.frame 0x27 [0x1C, 0x00, 0x00] ::
          List.replicate (0 + 1) (BusEvent.request 0x27 3)) ∧
    ∀ bytes : List Nat,
      BusEvent.frame 0x27 (0x5C :: bytes) ∉
        BusEvent.frame 0x27 [0x1C, 0x00, 0x00] ::
          List.replicate (0 + 1) (BusEvent.request 0x27 3) :=
  change_after_failed_read 0 1 ⟨true, true, false, 0x27⟩
    ⟨0, [], [], fun _ => [0x82, 0x12, 0xA7], 0, []⟩ 0x20 0x82 0x12 0xA7 rfl (by decide)
    (fun i hi => absurd hi (Nat.not_lt_zero i)) (by simp) (by decide) (by decide)
    (by decide) (by decide) (by decide) (by decide)

/-! ## What the operations leave unchanged -/

/-- The read loop changes no field of the object but `sensorBusy_`. -/
theorem readRegisterLoop_self (bound : Nat) :
    ∀ (self : HIH8000Command_I2C) (wire : TwoWire) (statusByte : Nat)
      (dataBytes : Option Nat),
      (readRegisterLoop bound self wire statusByte dataBytes).self.addressSet_ =
        self.addressSet_ ∧
      (readRegisterLoop bound self wire statusByte dataBytes).self.address_ =
        self.address_ := by
  induction bound with
  | zero =>
    intro self wire statusByte dataBytes
    unfold readRegisterLoop
    split <;> exact ⟨rfl, rfl⟩
  | succ n ih =>
    intro self wire statusByte dataBytes
    unfold readRegisterLoop
    split
    · dsimp only
      split
      · exact ih { self with sensorBusy_ := false } _ _ _
      · exact ih self _ _ _
    · exact ⟨rfl, rfl⟩

/-- The write loop changes no field of the object but `sensorBusy_`. -/
theorem writeRegisterLoop_self (bound : Nat) :
    ∀ (self : HIH8000Command_I2C) (wire : TwoWire) (statusByte : Nat),
      (writeRegisterLoop bound self wire statusByte).self.addressSet_ =
        self.addressSet_ ∧
      (writeRegisterLoop bound self wire statusByte).self.address_ = self.address_ := by
  induction bound with
  | zero =>
    intro self wire statusByte
    unfold writeRegisterLoop
    split <;> exact ⟨rfl, rfl⟩
  | succ n ih =>
    intro self wire statusByte
    unfold writeRegisterLoop
    split
    · dsimp only
      split
      · exact ih { self with sensorBusy_ := false } _ _
      · exact ih self _ _
    · exact ⟨rfl, rfl⟩

theorem readRegister_self (bound : Nat) (self : HIH8000Command_I2C) (wire : TwoWire)
    (command : Nat) :
    (readRegister bound self wire command).self.addressSet_ = self.addressSet_ ∧
    (readRegister bound self wire command).self.address_ = self.address_ := by
  unfold readRegister
  split
  · dsimp only
    have h := readRegisterLoop_self bound { self with sensorBusy_ := true }
      (((((wire.beginTransmission self.address_).write command).write DATA_DUMMY_).write
        DATA_DUMMY_).endTransmission) 0 none
    revert h
    cases readRegisterLoop bound { self with sensorBusy_ := true }
      (((((wire.beginTransmission self.address_).write command).write DATA_DUMMY_).write
        DATA_DUMMY_).endTransmission) 0 none with
    | polling s w => exact fun h => h
    | returned v s w =>
      intro h
      dsimp only
      split <;> exact h
  · exact ⟨rfl, rfl⟩

theorem writeRegister_self (bound : Nat) (self : HIH8000Command_I2C) (wire : TwoWire)
    (command oldDataBytes newDataBytes : Nat) (bitwiseOr : Bool) :
    (writeRegister bound self wire command oldDataBytes newDataBytes
      bitwiseOr).self.addressSet_ = self.addressSet_ ∧
    (writeRegister bound self wire command oldDataBytes newDataBytes
      bitwiseOr).self.address_ = self.address_ := by
  unfold writeRegister
  split
  · dsimp only
    have h := writeRegisterLoop_self bound { self with sensorBusy_ := true }
      (((((wire.beginTransmission self.address_).write command).write
        (((if bitwiseOr then oldDataBytes ||| newDataBytes
            else oldDataBytes &&& newDataBytes) >>> 8) % 256)).write
        ((if bitwiseOr then oldDataBytes ||| newDataBytes
            else oldDataBytes &&& newDataBytes) &&& 0xFF)).endTransmission) 0
    revert h
    cases writeRegisterLoop bound { self with sensorBusy_ := true }
      (((((wire.beginTransmission self.address_).write command).write
        (((if bitwiseOr then oldDataBytes ||| newDataBytes
            else oldDataBytes &&& newDataBytes) >>> 8) % 256)).write
        ((if bitwiseOr then oldDataBytes ||| newDataBytes
            else oldDataBytes &&& newDataBytes) &&& 0xFF)).endTransmission) 0 with
    | polling s w => exact fun h => h
    | returned v s w =>
      intro h
      dsimp only
      split <;> exact h
  · exact ⟨rfl, rfl⟩

theorem readCustConfig_self (bound : Nat) (self : HIH8000Command_I2C) (wire : TwoWire) :
    (readCustConfig bound self wire).self.addressSet_ = self.addressSet_ ∧
    (readCustConfig bound self wire).self.address_ = self.address_ := by
  have h := readRegister_self bound self wire COMMAND_READ_CUSTCONFIG_
  unfold readCustConfig
  revert h
  cases readRegister bound self wire COMMAND_READ_CUSTCONFIG_ with
  | polling s w => exact fun h => h
  | returned v s w =>
    obtain ⟨r, d⟩ := v
    intro h
    rcases r with _ | _ | _ <;> exact h

theorem readAlarm_self (bound : Nat) (self : HIH8000Command_I2C) (wire : TwoWire)
    (command : Nat) :
    (readAlarm bound self wire command).self.addressSet_ = self.addressSet_ ∧
    (readAlarm bound self wire command).self.address_ = self.address_ := by
  have h := readRegister_self bound self wire command
  unfold readAlarm
  revert h
  cases readRegister bound self wire command with
  | polling s w => exact fun h => h
  | returned v s w =>
    obtain ⟨r, d⟩ := v
    intro h
    rcases r with _ | _ | _ <;> exact h

theorem readAddress_self (bound : Nat) (self : HIH8000Command_I2C) (wire : TwoWire) :
    (readAddress bound self wire).self.addressSet_ = self.addressSet_ ∧
    (readAddress bound self wire).self.address_ = self.address_ := by
  have h := readCustConfig_self bound self wire
  unfold readAddress
  revert h
  cases readCustConfig bound self wire with
  | polling s w => exact fun h => h
  | returned v s w =>
    obtain ⟨r, d⟩ := v
    intro h
    rcases r with _ | _ | _ <;> exact h

theorem changeAddress_self (bound : Nat) (self : HIH8000Command_I2C) (wire : TwoWire)
    (n : Nat) :
    (changeAddress bound self wire n).self.addressSet_ = self.addressSet_ ∧
    (changeAddress bound self wire n).self.address_ = self.address_ := by
  have h := readCustConfig_self bound self wire
  unfold changeAddress
  split
  · revert h
    cases readCustConfig bound self wire with
    | polling s w => exact fun h => h
    | returned v s w =>
      obtain ⟨r, d⟩ := v
      intro h
      rcases r with _ | _ | _
      · exact h
      · exact h
      · cases d with
        | none => exact h
        | some c =>
          have h2 := writeRegister_self bound s w COMMAND_WRITE_CUSTCONFIG_
            (c &&& DATA_ADDRESS_CLEAR_) n true
          exact ⟨h2.1.trans h.1, h2.2.trans h.2⟩
  · exact ⟨rfl, rfl⟩

theorem changeCustConfig_self (bound : Nat) (self : HIH8000Command_I2C) (wire : TwoWire)
    (flag : Bool) (setBits clearMask : Nat) :
    (changeCustConfig bound self wire flag setBits clearMask).self.addressSet_ =
      self.addressSet_ ∧
    (changeCustConfig bound self wire flag setBits clearMask).self.address_ =
      self.address_ := by
  have h := readCustConfig_self bound self wire
  unfold changeCustConfig
  revert h
  cases readCustConfig bound self wire with
  | polling s w => exact fun h => h
  | returned v s w =>
    obtain ⟨r, d⟩ := v
    intro h
    rcases r with _ | _ | _
    · exact h
    · exact h
    · cases d with
      | none => exact h
      | some c =>
        cases flag
        · have h2 := writeRegister_self bound s w COMMAND_WRITE_CUSTCONFIG_ c clearMask false
          exact ⟨h2.1.trans h.1, h2.2.trans h.2⟩
        · have h2 := writeRegister_self bound s w COMMAND_WRITE_CUSTCONFIG_ c setBits true
          exact ⟨h2.1.trans h.1, h2.2.trans h.2⟩

theorem begin_self (self : HIH8000Command_I2C) (wire : TwoWire) :
    (self.begin wire).2.1.addressSet_ = self.addressSet_ ∧
    (self.begin wire).2.1.address_ = self.address_ := by
  unfold begin
  dsimp only
  split <;> exact ⟨rfl, rfl⟩

theorem changeAlarm_self (bound : Nat) (self : HIH8000Command_I2C) (wire : TwoWire)
    (command : Nat) (h : ℚ) (s' : HIH8000Command_I2C)
    (hs : (changeAlarm bound self wire command h).map Outcome.self = some s') :
    s'.addressSet_ = self.addressSet_ ∧ s'.address_ = self.address_ := by
  unfold changeAlarm at hs
  cases hconv : humidityToBits h with
  | none => simp [hconv] at hs
  | some w =>
    simp only [hconv, Option.map_some', Option.some.injEq] at hs
    rw [← hs]
    exact writeRegister_self bound self wire command w w true

theorem AddressValid_of_same (a b : HIH8000Command_I2C)
    (h : b.addressSet_ = a.addressSet_ ∧ b.address_ = a.address_)
    (ha : AddressValid a) : AddressValid b := by
  unfold AddressValid at *
  rw [h.1, h.2]
  exact ha

theorem setAddress_valid (self : HIH8000Command_I2C) (a : Nat)
    (h : AddressValid self) : AddressValid (self.setAddress a) := by
  unfold setAddress
  split
  · split
    · intro _
      assumption
    · exact h
  · exact h

/-- C20: the predicate "`addressSet_` implies `address_ <= 0x7F`" holds for a
session built by either constructor (whatever the uninitialised `address_`
holds) and is preserved by every public operation (`setAddress`, `begin`,
`end`, the read accessors, the change operations), for every argument, every
device and every bound on the poll loops; `changeAddress` never alters the
session's own `address_`. -/
theorem addressValid_invariant :
    (∀ g : Nat, AddressValid (mk0 g)) ∧
    (∀ g a : Nat, AddressValid (mkWithAddress g a)) ∧
    (∀ (call : PublicCall) (bound : Nat) (self : HIH8000Command_I2C) (wire : TwoWire)
      (s' : HIH8000Command_I2C),
      AddressValid self → call.after bound self wire = some s' → AddressValid s') ∧
    (∀ (bound : Nat) (self : HIH8000Command_I2C) (wire : TwoWire) (n : Nat),
      (changeAddress bound self wire n).self.address_ = self.address_) := by
  have hfresh : ∀ g : Nat, AddressValid (fresh g) := by
    intro g h
    simp [fresh] at h
  refine ⟨hfresh, fun g a => setAddress_valid _ a (hfresh g), ?_,
    fun bound self wire n => (changeAddress_self bound self wire n).2⟩
  intro call bound self wire s' hvalid hafter
  cases call with
  | setAddress a =>
    simp only [PublicCall.after, Option.some.injEq] at hafter
    rw [← hafter]
    exact setAddress_valid self a hvalid
  | begin =>
    simp only [PublicCall.after, Option.some.injEq] at hafter
    rw [← hafter]
    exact AddressValid_of_same self _ (begin_self self wire) hvalid
  | finish =>
    simp only [PublicCall.after, Option.some.injEq] at hafter
    rw [← hafter]
    exact AddressValid_of_same self _ ⟨rfl, rfl⟩ hvalid
  | readThreshold t =>
    simp only [PublicCall.after, Option.some.injEq] at hafter
    rw [← hafter]
    cases t <;> exact AddressValid_of_same self _ (readAlarm_self bound self wire _) hvalid
  | readAddress =>
    simp only [PublicCall.after, Option.some.injEq] at hafter
    rw [← hafter]
    exact AddressValid_of_same self _ (readAddress_self bound self wire) hvalid
  | changeThreshold t h =>
    simp only [PublicCall.after] at hafter
    cases t <;>
      exact AddressValid_of_same self _ (changeAlarm_self bound self wire _ h s' hafter)
        hvalid
  | changeAddress n =>
    simp only [PublicCall.after, Option.some.injEq] at hafter
    rw [← hafter]
    exact AddressValid_of_same self _ (changeAddress_self bound self wire n) hvalid
  | changeBit op flag =>
    simp only [PublicCall.after, Option.some.injEq] at hafter
    rw [← hafter]
    cases op <;>
      exact AddressValid_of_same self _ (changeCustConfig_self bound self wire flag _ _)
        hvalid

end HIH8000Command_I2C

end HIH8000
